import Mathlib

/-!
Verification of the `alfred` conversational calendar assistant.

Shallow embedding of the Python sources:
  - `src/services/calendar_service.py`  (Calendar Gateway)
  - `src/services/gemini_parser.py`     (standalone event extractor)
  - `src/features/calendar_feature.py`  (calendar feature handler)
  - `src/app.py`                        (webhook transport)

Python strings are modelled as `String`/`List Char`; Python dict/JSON data
as an inductive `Json` type; Python exceptions as `Except String`; the
external Google Calendar API and the Gemini model as oracle functions
supplied through an environment record.
-/

namespace Alfred

/-! ## Python text helpers

`str.strip()`, `str.split(sep)` and `str.startswith` as used by the
sources, modelled on `List Char`. -/

/-- ASCII whitespace recognised by Python `str.strip()`. -/
def pyWs (c : Char) : Bool :=
  c = ' ' ∨ c = '\t' ∨ c = '\n' ∨ c = '\r' ∨ c = (Char.ofNat 11) ∨ c = (Char.ofNat 12)

/-- Python `str.strip()` on a character list. -/
def pyStripL (l : List Char) : List Char :=
  ((l.dropWhile pyWs).reverse.dropWhile pyWs).reverse

/-- Python `str.strip()`. -/
def pyStripS (s : String) : String :=
  ⟨pyStripL s.data⟩

/-- First occurrence of the (non-empty) separator `sep` in `l`:
returns the text before it and the text after it, or `none` when `sep`
does not occur in `l`. -/
def splitFirst (sep : List Char) : List Char → Option (List Char × List Char)
  | [] => if sep.isEmpty then some ([], []) else none
  | c :: cs =>
    if sep.isPrefixOf (c :: cs) then some ([], (c :: cs).drop sep.length)
    else
      match splitFirst sep cs with
      | none => none
      | some (pre, post) => some (c :: pre, post)

/-- Python `s.split(sep)[0]`: the text before the first occurrence of
`sep`, or all of `s` when `sep` does not occur. -/
def pySplit0 (sep l : List Char) : List Char :=
  match splitFirst sep l with
  | none => l
  | some (pre, _) => pre

/-- Python `s.split(sep)[1]`: the text between the first and the second
occurrence of `sep` (to the end when there is no second occurrence);
`none` models the `IndexError` raised when `sep` does not occur at all. -/
def pySplit1 (sep l : List Char) : Option (List Char) :=
  (splitFirst sep l).map (fun p => pySplit0 sep p.2)

/-- Occurrence test: does `sep` occur as a contiguous block in `l`? -/
def containsSeq (sep l : List Char) : Bool :=
  (splitFirst sep l).isSome

/-- The backtick character (codepoint 96). -/
def btick : Char := Char.ofNat 96

/-- The three-backtick fence (the characters of the literal used on
calendar_feature.py 236 / gemini_parser.py 129). -/
def fence3 : List Char := [btick, btick, btick]

/-- The fence with a `json` language tag (calendar_feature.py 234 /
gemini_parser.py 127). -/
def fence7 : List Char := fence3 ++ ['j', 's', 'o', 'n']

/-- Markdown code-fence stripping shared by
`CalendarFeature._parse_calendar_request` (calendar_feature.py 234-237)
and `parse_message_to_events` (gemini_parser.py 127-130):

    if response_text.startswith('```json'):
        response_text = response_text.split('```json')[1].split('```')[0].strip()
    elif response_text.startswith('```'):
        response_text = response_text.split('```')[1].split('```')[0].strip()

`none` models the (unreachable) `IndexError` path. -/
def stripFenceL (l : List Char) : Option (List Char) :=
  if fence7.isPrefixOf l then
    (pySplit1 fence7 l).map (fun t => pyStripL (pySplit0 fence3 t))
  else if fence3.isPrefixOf l then
    (pySplit1 fence3 l).map (fun t => pyStripL (pySplit0 fence3 t))
  else
    some l

/-- `stripFenceL` on `String`. -/
def stripFenceS (s : String) : Option String :=
  (stripFenceL s.data).map (fun l => ⟨l⟩)

/-! ## JSON values

Model of the Python objects produced by `json.loads`: `null`/`bool`/
`int`/`float`/`str`/`list`/`dict`.  Floats are kept symbolically as
mantissa and decimal exponent (no floating-point arithmetic is ever
performed by the sources on parsed values). -/

/-- A parsed JSON value (a Python object as returned by `json.loads`). -/
inductive Json where
  | null : Json
  | bool (b : Bool) : Json
  | num (n : Int) : Json
  | flt (mantissa : Int) (exp10 : Int) : Json
  | str (s : String) : Json
  | arr (elems : List Json) : Json
  | obj (fields : List (String × Json)) : Json
deriving Repr

mutual

/-- Structural equality on `Json` (Python `==` on parsed values). -/
def Json.beq : Json → Json → Bool
  | .null, .null => true
  | .bool a, .bool b => a = b
  | .num a, .num b => a = b
  | .flt a b, .flt c d => a = c ∧ b = d
  | .str a, .str b => a = b
  | .arr a, .arr b => Json.beqList a b
  | .obj a, .obj b => Json.beqFields a b
  | _, _ => false

/-- Elementwise equality of JSON arrays. -/
def Json.beqList : List Json → List Json → Bool
  | [], [] => true
  | a :: as', b :: bs' => Json.beq a b ∧ Json.beqList as' bs'
  | _, _ => false

/-- Elementwise equality of JSON object field lists. -/
def Json.beqFields : List (String × Json) → List (String × Json) → Bool
  | [], [] => true
  | (k, v) :: as', (k', v') :: bs' => k = k' ∧ Json.beq v v' ∧ Json.beqFields as' bs'
  | _, _ => false

end

instance : BEq Json := ⟨Json.beq⟩

/-- Python type name of a JSON value (`type(x).__name__`). -/
def jsonTypeName : Json → String
  | .null => "NoneType"
  | .bool _ => "bool"
  | .num _ => "int"
  | .flt _ _ => "float"
  | .str _ => "str"
  | .arr _ => "list"
  | .obj _ => "dict"

/-- Python truthiness of a JSON value. -/
def truthy : Json → Bool
  | .null => false
  | .bool b => b
  | .num n => n ≠ 0
  | .flt m _ => m ≠ 0
  | .str s => s ≠ ""
  | .arr l => ¬ l.isEmpty
  | .obj l => ¬ l.isEmpty

/-- Dictionary lookup on an object's field list (first match; keys are
unique in dictionaries). -/
def lookupField (fields : List (String × Json)) (k : String) : Option Json :=
  match fields with
  | [] => none
  | (k', v) :: rest => if k' = k then some v else lookupField rest k

/-- Python `d[k] = v` on a field list: replace the existing binding or
append a new one. -/
def assocSet (fields : List (String × Json)) (k : String) (v : Json) :
    List (String × Json) :=
  match fields with
  | [] => [(k, v)]
  | (k', v') :: rest =>
    if k' = k then (k', v) :: rest else (k', v') :: assocSet rest k v

/-- `dict.get(k)` on an object; `none` when `j` is not an object (the
caller models the `AttributeError`) or the key is absent. -/
def jGet (j : Json) (k : String) : Option Json :=
  match j with
  | .obj fields => lookupField fields k
  | _ => none

/-- The message of a Python `KeyError` rendered by `str(e)` (the `repr`
of the missing key). -/
def keyErrorMsg (k : String) : String :=
  "'" ++ k ++ "'"

/-- The message of an `AttributeError` for a missing attribute. -/
def attrErrorMsg (typeName attr : String) : String :=
  "'" ++ typeName ++ "' object has no attribute '" ++ attr ++ "'"

/-- Python `x[k]` with a string key: dictionary lookup (raising
`KeyError` when absent) or a `TypeError` for non-dictionaries. -/
def pyGetItem (j : Json) (k : String) : Except String Json :=
  match j with
  | .obj fields =>
    match lookupField fields k with
    | some v => .ok v
    | none => .error (keyErrorMsg k)
  | .str _ => .error "string indices must be integers"
  | _ => .error ("'" ++ jsonTypeName j ++ "' object is not subscriptable")

/-- Python `x[k] = v` with a string key: field assignment on a
dictionary, a `TypeError` otherwise. -/
def pySetItem (j : Json) (k : String) (v : Json) : Except String Json :=
  match j with
  | .obj fields => .ok (.obj (assocSet fields k v))
  | _ => .error ("'" ++ jsonTypeName j ++ "' object does not support item assignment")

/-- Python `x.get(k, default)`: dictionary lookup with a default, or an
`AttributeError` when `x` is not a dictionary. -/
def pyDictGet (j : Json) (k : String) (deflt : Json) : Except String Json :=
  match j with
  | .obj fields =>
    match lookupField fields k with
    | some v => .ok v
    | none => .ok deflt
  | _ => .error (attrErrorMsg (jsonTypeName j) "get")

/-- Python `k in x` for a string `k`: key test on dictionaries,
membership on lists, substring test on strings, `TypeError` otherwise. -/
def pyIn (k : String) (j : Json) : Except String Bool :=
  match j with
  | .obj fields => .ok (fields.any (fun p => p.1 = k))
  | .arr elems => .ok (elems.any (fun e => e == Json.str k))
  | .str s => .ok (containsSeq k.data s.data)
  | _ => .error ("argument of type '" ++ jsonTypeName j ++ "' is not iterable")

/-- Python `len(x)`: defined for strings, lists and dictionaries,
`TypeError` otherwise. -/
def pyLen (j : Json) : Except String Nat :=
  match j with
  | .str s => .ok s.length
  | .arr elems => .ok elems.length
  | .obj fields => .ok fields.length
  | _ => .error ("object of type '" ++ jsonTypeName j ++ "' has no len()")

/-- Python `for x in j`: the sequence of iterates — list elements, the
characters of a string (each again a string), the keys of a dictionary —
or a `TypeError` for non-iterables. -/
def jsonIterElems (j : Json) : Except String (List Json) :=
  match j with
  | .arr elems => .ok elems
  | .str s => .ok (s.data.map (fun c => Json.str (String.mk [c])))
  | .obj fields => .ok (fields.map (fun p => Json.str p.1))
  | _ => .error ("'" ++ jsonTypeName j ++ "' object is not iterable")

mutual

/-- Rendering of a JSON value inside a Python f-string (`str(x)`).
Container values are rendered in Python `repr` style; string escaping
inside containers is not reproduced (no claim depends on it). -/
def pyStr : Json → String
  | .null => "None"
  | .bool b => if b then "True" else "False"
  | .num n => toString n
  | .flt m e => toString m ++ "e" ++ toString e
  | .str s => s
  | .arr elems => "[" ++ pyStrList elems ++ "]"
  | .obj fields => "\x7b" ++ pyStrFields fields ++ "\x7d"

/-- `repr`-style rendering used for values nested inside containers. -/
def pyStrRepr : Json → String
  | .str s => "'" ++ s ++ "'"
  | .null => "None"
  | .bool b => if b then "True" else "False"
  | .num n => toString n
  | .flt m e => toString m ++ "e" ++ toString e
  | .arr elems => "[" ++ pyStrList elems ++ "]"
  | .obj fields => "\x7b" ++ pyStrFields fields ++ "\x7d"

/-- Comma-separated rendering of list elements. -/
def pyStrList : List Json → String
  | [] => ""
  | [x] => pyStrRepr x
  | x :: xs => pyStrRepr x ++ ", " ++ pyStrList xs

/-- Comma-separated rendering of dictionary items. -/
def pyStrFields : List (String × Json) → String
  | [] => ""
  | [(k, v)] => "'" ++ k ++ "': " ++ pyStrRepr v
  | (k, v) :: xs => "'" ++ k ++ "': " ++ pyStrRepr v ++ ", " ++ pyStrFields xs

end

/-! ## JSON parsing

Model of Python `json.loads` (recursive descent with fuel; the fuel is
always sufficient because every recursive call first consumes at least
one character).  `\uXXXX` escapes are not modelled; no source input in
this development uses them. -/

/-- JSON structural whitespace. -/
def jsonWs (c : Char) : Bool :=
  c = ' ' ∨ c = '\t' ∨ c = '\n' ∨ c = '\r'

/-- Decimal digit test. -/
def isDig (c : Char) : Bool :=
  '0' ≤ c ∧ c ≤ '9'

/-- Value of a decimal digit character. -/
def digVal (c : Char) : Nat :=
  c.toNat - 48

/-- Numeric value of a digit run. -/
def digitsVal (l : List Char) : Nat :=
  l.foldl (fun acc c => 10 * acc + digVal c) 0

/-- Parse the body of a JSON string literal after the opening quote;
returns the string contents and the input after the closing quote. -/
def parseJStr : Nat → List Char → Option (List Char × List Char)
  | 0, _ => none
  | _, [] => none
  | fuel + 1, c :: rest =>
    if c = '"' then some ([], rest)
    else if c = '\\' then
      match rest with
      | [] => none
      | e :: rest' =>
        let esc : Option Char :=
          if e = '"' then some '"'
          else if e = '\\' then some '\\'
          else if e = '/' then some '/'
          else if e = 'b' then some (Char.ofNat 8)
          else if e = 'f' then some (Char.ofNat 12)
          else if e = 'n' then some '\n'
          else if e = 'r' then some '\r'
          else if e = 't' then some '\t'
          else none
        match esc with
        | none => none
        | some ch =>
          match parseJStr fuel rest' with
          | none => none
          | some (s, rem) => some (ch :: s, rem)
    else
      match parseJStr fuel rest with
      | none => none
      | some (s, rem) => some (c :: s, rem)

/-- Parse a JSON number starting at the given input; returns the value
and the remaining input. -/
def parseJNum (l : List Char) : Option (Json × List Char) :=
  let (neg, l1) :=
    match l with
    | '-' :: rest => (true, rest)
    | _ => (false, l)
  let intPart := l1.takeWhile isDig
  let l2 := l1.dropWhile isDig
  if intPart.isEmpty then none
  else
    let (fracPart, l3) :=
      match l2 with
      | '.' :: rest =>
        let f := rest.takeWhile isDig
        (f, rest.dropWhile isDig)
      | _ => ([], l2)
    if l2 ≠ l3 ∧ fracPart.isEmpty then none
    else
      let (hasExp, expNeg, expPart, l4) :=
        match l3 with
        | 'e' :: rest | 'E' :: rest =>
          match rest with
          | '-' :: rest' => (true, true, rest'.takeWhile isDig, rest'.dropWhile isDig)
          | '+' :: rest' => (true, false, rest'.takeWhile isDig, rest'.dropWhile isDig)
          | _ => (true, false, rest.takeWhile isDig, rest.dropWhile isDig)
        | _ => (false, false, [], l3)
      if hasExp ∧ expPart.isEmpty then none
      else
        let sign : Int := if neg then -1 else 1
        if fracPart.isEmpty ∧ ¬ hasExp then
          some (.num (sign * Int.ofNat (digitsVal intPart)), l3)
        else
          let mant : Int := sign * Int.ofNat (digitsVal (intPart ++ fracPart))
          let e0 : Int := if expNeg then -(Int.ofNat (digitsVal expPart))
                          else Int.ofNat (digitsVal expPart)
          some (.flt mant (e0 - Int.ofNat fracPart.length), l4)

mutual

/-- Parse one JSON value; returns the value and the remaining input. -/
def parseJ : Nat → List Char → Option (Json × List Char)
  | 0, _ => none
  | fuel + 1, l =>
    match l.dropWhile jsonWs with
    | [] => none
    | c :: rest =>
      if c = '{' then
        match (rest.dropWhile jsonWs) with
        | '}' :: rem => some (.obj [], rem)
        | _ => parseJObj fuel rest []
      else if c = '[' then
        match (rest.dropWhile jsonWs) with
        | ']' :: rem => some (.arr [], rem)
        | _ => parseJArr fuel rest []
      else if c = '"' then
        match parseJStr (rest.length + 1) rest with
        | none => none
        | some (s, rem) => some (.str ⟨s⟩, rem)
      else if c = 't' then
        if "rue".data.isPrefixOf rest then some (.bool true, rest.drop 3) else none
      else if c = 'f' then
        if "alse".data.isPrefixOf rest then some (.bool false, rest.drop 4) else none
      else if c = 'n' then
        if "ull".data.isPrefixOf rest then some (.null, rest.drop 3) else none
      else
        parseJNum (c :: rest)

/-- Parse the members of a JSON object after the opening brace
(non-empty member list). -/
def parseJObj : Nat → List Char → List (String × Json) →
    Option (Json × List Char)
  | 0, _, _ => none
  | fuel + 1, l, acc =>
    match l.dropWhile jsonWs with
    | '"' :: rest =>
      match parseJStr (rest.length + 1) rest with
      | none => none
      | some (k, rem) =>
        match rem.dropWhile jsonWs with
        | ':' :: rem2 =>
          match parseJ fuel rem2 with
          | none => none
          | some (v, rem3) =>
            let acc' := assocSet acc ⟨k⟩ v
            match rem3.dropWhile jsonWs with
            | ',' :: rem4 => parseJObj fuel rem4 acc'
            | '}' :: rem4 => some (.obj acc', rem4)
            | _ => none
        | _ => none
    | _ => none

/-- Parse the elements of a JSON array after the opening bracket
(non-empty element list). -/
def parseJArr : Nat → List Char → List Json → Option (Json × List Char)
  | 0, _, _ => none
  | fuel + 1, l, acc =>
    match parseJ fuel l with
    | none => none
    | some (v, rem) =>
      match rem.dropWhile jsonWs with
      | ',' :: rem2 => parseJArr fuel rem2 (acc ++ [v])
      | ']' :: rem2 => some (.arr (acc ++ [v]), rem2)
      | _ => none

end

/-- Python `json.loads`: parse a complete JSON document; `none` models a
`json.JSONDecodeError`. -/
def jsonParse (s : String) : Option Json :=
  match parseJ (s.length + 1) s.data with
  | none => none
  | some (v, rem) => if (rem.dropWhile jsonWs).isEmpty then some v else none

/-! ## Datetimes

Model of the Python `datetime` values flowing through the sources:
naive or timezone-aware (fixed-offset) wall-clock times at second
resolution, plus the `strptime`/`isoformat`/`fromisoformat`/`strftime`
operations the sources use. -/

/-- A Python `datetime`: wall-clock fields plus an optional fixed UTC
offset in minutes (`none` = naive). -/
structure DT where
  year : Nat
  month : Nat
  day : Nat
  hour : Nat
  minute : Nat
  second : Nat
  tzMin : Option Int
deriving Repr, DecidableEq

/-- Gregorian leap-year test. -/
def isLeap (y : Nat) : Bool :=
  (y % 4 = 0 ∧ y % 100 ≠ 0) ∨ y % 400 = 0

/-- Number of days in a month. -/
def daysInMonth (y m : Nat) : Nat :=
  if m = 2 then (if isLeap y then 29 else 28)
  else if m = 4 ∨ m = 6 ∨ m = 9 ∨ m = 11 then 30
  else 31

/-- Validity of a `DT`'s calendar fields (enforced by the `datetime`
constructor). -/
def DT.valid (d : DT) : Prop :=
  1 ≤ d.year ∧ d.year ≤ 9999 ∧ 1 ≤ d.month ∧ d.month ≤ 12 ∧
  1 ≤ d.day ∧ d.day ≤ daysInMonth d.year d.month ∧
  d.hour ≤ 23 ∧ d.minute ≤ 59 ∧ d.second ≤ 59

instance (d : DT) : Decidable d.valid := by
  unfold DT.valid
  infer_instance

/-- Chronological comparison of naive datetimes (`<` on `datetime`). -/
def DT.key (d : DT) : Nat :=
  ((((d.year * 13 + d.month) * 32 + d.day) * 24 + d.hour) * 60 + d.minute) * 60 + d.second

/-- Strict `datetime` order (on naive values, as compared by Python). -/
def DT.lt (a b : DT) : Prop :=
  a.key < b.key

instance (a b : DT) : Decidable (DT.lt a b) := by
  unfold DT.lt
  infer_instance

/-- `%m` of `strptime`: pattern `1[0-2]|0[1-9]|[1-9]` (the regex used
by Python's `_strptime`). -/
def readMonth : List Char → Option (Nat × List Char)
  | c1 :: c2 :: rest =>
    if c1 = '1' ∧ '0' ≤ c2 ∧ c2 ≤ '2' then some (10 + digVal c2, rest)
    else if c1 = '0' ∧ '1' ≤ c2 ∧ c2 ≤ '9' then some (digVal c2, rest)
    else if '1' ≤ c1 ∧ c1 ≤ '9' then some (digVal c1, c2 :: rest)
    else none
  | [c1] => if '1' ≤ c1 ∧ c1 ≤ '9' then some (digVal c1, []) else none
  | [] => none

/-- `%d` of `strptime`: pattern `3[01]|[12]\d|0[1-9]|[1-9]`. -/
def readDay : List Char → Option (Nat × List Char)
  | c1 :: c2 :: rest =>
    if c1 = '3' ∧ '0' ≤ c2 ∧ c2 ≤ '1' then some (30 + digVal c2, rest)
    else if ('1' ≤ c1 ∧ c1 ≤ '2') ∧ isDig c2 then some (10 * digVal c1 + digVal c2, rest)
    else if c1 = '0' ∧ '1' ≤ c2 ∧ c2 ≤ '9' then some (digVal c2, rest)
    else if '1' ≤ c1 ∧ c1 ≤ '9' then some (digVal c1, c2 :: rest)
    else none
  | [c1] => if '1' ≤ c1 ∧ c1 ≤ '9' then some (digVal c1, []) else none
  | [] => none

/-- `%H` of `strptime`: pattern `2[0-3]|[0-1]\d|\d`. -/
def readHour : List Char → Option (Nat × List Char)
  | c1 :: c2 :: rest =>
    if c1 = '2' ∧ '0' ≤ c2 ∧ c2 ≤ '3' then some (20 + digVal c2, rest)
    else if ('0' ≤ c1 ∧ c1 ≤ '1') ∧ isDig c2 then some (10 * digVal c1 + digVal c2, rest)
    else if isDig c1 then some (digVal c1, c2 :: rest)
    else none
  | [c1] => if isDig c1 then some (digVal c1, []) else none
  | [] => none

/-- `%M` of `strptime`: pattern `[0-5]\d|\d`. -/
def readMinute : List Char → Option (Nat × List Char)
  | c1 :: c2 :: rest =>
    if ('0' ≤ c1 ∧ c1 ≤ '5') ∧ isDig c2 then some (10 * digVal c1 + digVal c2, rest)
    else if isDig c1 then some (digVal c1, c2 :: rest)
    else none
  | [c1] => if isDig c1 then some (digVal c1, []) else none
  | [] => none

/-- `datetime.strptime(s, '%Y-%m-%d %H:%M')` as used by
`calendar_feature.py` 266/267 and `gemini_parser.py` 145/146: `%Y` is
exactly four digits, the literals `-`, `-`, space and `:` must match,
no input may remain, and the resulting calendar date must be valid.
`none` models the `ValueError`. -/
def parseYmdHm (s : String) : Option DT :=
  match s.data with
  | y1 :: y2 :: y3 :: y4 :: '-' :: rest =>
    if isDig y1 ∧ isDig y2 ∧ isDig y3 ∧ isDig y4 then
      let y := digitsVal [y1, y2, y3, y4]
      match readMonth rest with
      | some (m, '-' :: rest2) =>
        match readDay rest2 with
        | some (d, ' ' :: rest3) =>
          match readHour rest3 with
          | some (h, ':' :: rest4) =>
            match readMinute rest4 with
            | some (mi, []) =>
              if 1 ≤ y ∧ d ≤ daysInMonth y m then
                some { year := y, month := m, day := d, hour := h,
                       minute := mi, second := 0, tzMin := none }
              else none
            | _ => none
          | _ => none
        | _ => none
      | _ => none
    else none
  | _ => none

/-- Two-digit zero-padded decimal rendering. -/
def pad2 (n : Nat) : String :=
  ⟨[Char.ofNat (48 + n / 10 % 10), Char.ofNat (48 + n % 10)]⟩

/-- Four-digit zero-padded decimal rendering. -/
def pad4 (n : Nat) : String :=
  ⟨[Char.ofNat (48 + n / 1000 % 10), Char.ofNat (48 + n / 100 % 10),
    Char.ofNat (48 + n / 10 % 10), Char.ofNat (48 + n % 10)]⟩

/-- `datetime.isoformat()` on the second-resolution datetimes of this
development: `YYYY-MM-DDTHH:MM:SS`. -/
def DT.isoformat (d : DT) : String :=
  pad4 d.year ++ "-" ++ pad2 d.month ++ "-" ++ pad2 d.day ++ "T" ++
  pad2 d.hour ++ ":" ++ pad2 d.minute ++ ":" ++ pad2 d.second

/-- Read exactly `n` decimal digits. -/
def readDigits (n : Nat) (l : List Char) : Option (Nat × List Char) :=
  let pre := l.take n
  if pre.length = n ∧ pre.all isDig then some (digitsVal pre, l.drop n) else none

/-- `datetime.fromisoformat` for the forms the sources feed it:
`YYYY-MM-DD`, optionally followed by `T` or a space and `HH:MM`,
`HH:MM:SS`, and an optional `+HH:MM`/`-HH:MM` offset.  `none` models
the `ValueError`. -/
def fromIsoformat (s : String) : Option DT :=
  match readDigits 4 s.data with
  | some (y, '-' :: r1) =>
    (match readDigits 2 r1 with
     | some (m, '-' :: r2) =>
       (match readDigits 2 r2 with
        | some (d, rest) =>
          let mk (h mi sec : Nat) (tz : Option Int) : Option DT :=
            let dt : DT := { year := y, month := m, day := d, hour := h,
                             minute := mi, second := sec, tzMin := tz }
            if dt.valid then some dt else none
          let readTz (l : List Char) (h mi sec : Nat) : Option DT :=
            match l with
            | [] => mk h mi sec none
            | '+' :: r =>
              (match readDigits 2 r with
               | some (oh, ':' :: r') =>
                 (match readDigits 2 r' with
                  | some (om, []) => mk h mi sec (some (Int.ofNat (oh * 60 + om)))
                  | _ => none)
               | _ => none)
            | '-' :: r =>
              (match readDigits 2 r with
               | some (oh, ':' :: r') =>
                 (match readDigits 2 r' with
                  | some (om, []) => mk h mi sec (some (-(Int.ofNat (oh * 60 + om))))
                  | _ => none)
               | _ => none)
            | _ => none
          (match rest with
           | [] => mk 0 0 0 none
           | sep :: r3 =>
             if sep = 'T' ∨ sep = ' ' then
               match readDigits 2 r3 with
               | some (h, ':' :: r4) =>
                 (match readDigits 2 r4 with
                  | some (mi, r5) =>
                    (match r5 with
                     | ':' :: r6 =>
                       (match readDigits 2 r6 with
                        | some (sec, r7) => readTz r7 h mi sec
                        | _ => none)
                     | _ => readTz r5 h mi 0)
                  | _ => none)
               | _ => none
             else none)
        | _ => none)
     | _ => none)
  | _ => none

/-- Days since 1970-01-01 of a civil date (Howard Hinnant's
`days_from_civil`). -/
def daysFromCivil (y m d : Int) : Int :=
  let y' := if m ≤ 2 then y - 1 else y
  let era := (if y' ≥ 0 then y' else y' - 399) / 400
  let yoe := y' - era * 400
  let mp := (m + 9) % 12
  let doy := (153 * mp + 2) / 5 + d - 1
  let doe := yoe * 365 + yoe / 4 - yoe / 100 + doy
  era * 146097 + doe - 719468

/-- Civil date of a day count since 1970-01-01 (`civil_from_days`). -/
def civilFromDays (z0 : Int) : Int × Int × Int :=
  let z := z0 + 719468
  let era := (if z ≥ 0 then z else z - 146096) / 146097
  let doe := z - era * 146097
  let yoe := (doe - doe / 1460 + doe / 36524 - doe / 146096) / 365
  let y := yoe + era * 400
  let doy := doe - (365 * yoe + yoe / 4 - yoe / 100)
  let mp := (5 * doy + 2) / 153
  let d := doy - (153 * mp + 2) / 5 + 1
  let m := if mp < 10 then mp + 3 else mp - 9
  (if m ≤ 2 then y + 1 else y, m, d)

/-- Seconds since 1970-01-01T00:00:00 of a datetime's wall-clock
fields (offset not applied). -/
def DT.wallEpoch (d : DT) : Int :=
  daysFromCivil (Int.ofNat d.year) (Int.ofNat d.month) (Int.ofNat d.day) * 86400 +
  Int.ofNat (d.hour * 3600 + d.minute * 60 + d.second)

/-- Datetime (UTC) for a second count since the epoch. -/
def dtOfEpoch (e : Int) : DT :=
  let days := e / 86400
  let rem := (e % 86400).toNat
  let (y, m, d) := civilFromDays days
  { year := y.toNat, month := m.toNat, day := d.toNat,
    hour := rem / 3600, minute := rem / 60 % 60, second := rem % 60,
    tzMin := some 0 }

/-- `dt.astimezone(timezone.utc)` for an aware datetime. -/
def DT.toUtc (d : DT) : DT :=
  match d.tzMin with
  | none => d
  | some off => dtOfEpoch (d.wallEpoch - off * 60)

/-- The `_to_rfc3339` helper of `search_events`
(calendar_service.py 196-200): aware datetimes are converted to UTC,
naive datetimes are formatted directly (assumed UTC); the result is
`%Y-%m-%dT%H:%M:%SZ`. -/
def toRfc3339 (d : DT) : String :=
  let d' := if d.tzMin.isSome then d.toUtc else d
  pad4 d'.year ++ "-" ++ pad2 d'.month ++ "-" ++ pad2 d'.day ++ "T" ++
  pad2 d'.hour ++ ":" ++ pad2 d'.minute ++ ":" ++ pad2 d'.second ++ "Z"

/-- Day of week (0 = Monday, as Python `date.weekday()`), by Sakamoto's
method. -/
def weekday (y m d : Nat) : Nat :=
  let t := [0, 3, 2, 5, 0, 3, 5, 1, 4, 6, 2, 4]
  let y' := if m < 3 then y - 1 else y
  (y' + y' / 4 - y' / 100 + y' / 400 + t.getD (m - 1) 0 + d + 6) % 7

/-- `%a` abbreviations (C locale). -/
def weekdayAbbrev (w : Nat) : String :=
  [ "Mon", "Tue", "Wed", "Thu", "Fri", "Sat", "Sun" ].getD w "Mon"

/-- `%b` abbreviations (C locale). -/
def monthAbbrev (m : Nat) : String :=
  [ "Jan", "Feb", "Mar", "Apr", "May", "Jun", "Jul", "Aug", "Sep",
    "Oct", "Nov", "Dec" ].getD (m - 1) "Jan"

/-- `%-I`: hour on a 12-hour clock, no padding. -/
def hour12 (h : Nat) : Nat :=
  (h + 11) % 12 + 1

/-- `%p`: AM/PM marker. -/
def amPm (h : Nat) : String :=
  if h < 12 then "AM" else "PM"

/-- `strftime('%a, %b %d at %-I:%M %p')` as used by the creation reply
formatting (calendar_feature.py 310/312 and 347/349). -/
def fmtDayTime (d : DT) : String :=
  weekdayAbbrev (weekday d.year d.month d.day) ++ ", " ++ monthAbbrev d.month ++
  " " ++ pad2 d.day ++ " at " ++ toString (hour12 d.hour) ++ ":" ++
  pad2 d.minute ++ " " ++ amPm d.hour

/-- `strftime('%-I:%M %p')`. -/
def fmtClock (d : DT) : String :=
  toString (hour12 d.hour) ++ ":" ++ pad2 d.minute ++ " " ++ amPm d.hour

/-- The `time_str` built for a created event: same-day events show the
end as a bare clock time, otherwise both endpoints are dated
(calendar_feature.py 309-312 and 346-349). -/
def fmtTimeRange (s e : DT) : String :=
  if s.year = e.year ∧ s.month = e.month ∧ s.day = e.day then
    fmtDayTime s ++ " → " ++ fmtClock e
  else
    fmtDayTime s ++ " → " ++ fmtDayTime e

/-! ## Calendar Gateway (`src/services/calendar_service.py`)

The Google Calendar API is modelled by oracle functions in an
environment record; each embedded gateway operation returns the trace
of API calls it issued (tagged with the credential used) together with
its result. -/

/-- The two OAuth credential scopes of the dual-authentication design:
`readOnly` is the broad `calendar.readonly` user credential, `write`
the bot credential with full scope confined by ACL to the bot
calendar. -/
inductive Cred where
  | readOnly : Cred
  | write : Cred
deriving Repr, DecidableEq

/-- `get_read_service()` (calendar_service.py 74-86): the service built
from the user credentials with `USER_SCOPES`. -/
def getReadService : Cred := .readOnly

/-- `get_write_service()` (calendar_service.py 88-100): the service
built from the bot credentials with `BOT_SCOPES`. -/
def getWriteService : Cred := .write

/-- `get_calendar_service()` (legacy alias, calendar_service.py
103-108): returns the write service. -/
def getCalendarService : Cred := getWriteService

/-- The parameters of an `events().list` request as assembled by
`search_events` (calendar_service.py 202-212). -/
structure ListParams where
  calendarId : String
  q : Json
  maxResults : Nat
  singleEvents : Bool
  orderBy : String
  timeMin : String
  timeMax : Option String
deriving Repr

/-- One call issued against the calendar provider, tagged with the
credential whose service issued it. -/
inductive ApiCall where
  | insert (cred : Cred) (calendarId : String) (body : Json)
  | listEv (cred : Cred) (params : ListParams)
  | getEv (cred : Cred) (calendarId : String) (eventId : Json)
  | update (cred : Cred) (calendarId : String) (eventId : Json) (body : Json)
deriving Repr

/-- Is this call a mutation (an event insert or update)? -/
def ApiCall.isMutation : ApiCall → Bool
  | .insert _ _ _ => true
  | .update _ _ _ _ => true
  | _ => false

/-- The credential a call was issued with. -/
def ApiCall.cred : ApiCall → Cred
  | .insert c _ _ => c
  | .listEv c _ => c
  | .getEv c _ _ => c
  | .update c _ _ _ => c

/-- Environment: configuration plus oracles for the external calendar
provider.  `calendarId` is `os.getenv('GOOGLE_CALENDAR_ID','primary')`;
`now` is `datetime.now(timezone.utc)` (an aware UTC datetime); the
`Exec` oracles give the provider's response to each request
(`Except.error` models the exception raised by `.execute()`). -/
structure Env where
  calendarId : String
  now : DT
  insertExec : Json → Except String Json
  listExec : ListParams → Except String (List Json)
  getExec : Json → Except String Json
  updateExec : Json → Json → Except String Json

/-- An event draft as assembled by the per-element conversion loops
(calendar_feature.py 264-280, gemini_parser.py 143-157): `summary` is
whatever JSON value `event.get('summary', 'Untitled Event')` produced,
`start`/`stop` (`end` in the source) are parsed datetimes, and the
optional fields are present exactly when the corresponding JSON field
was present and truthy. -/
structure EventDraft where
  summary : Json
  start : DT
  stop : DT
  description : Option Json
  location : Option Json
  recurrence : Option Json
  reminders : Option Json
deriving Repr

/-- The request body assembled by `create_calendar_event`
(calendar_service.py 131-164): summary, start/end with the fixed
`America/Los_Angeles` timezone, then optional description, location,
recurrence (wrapped in a singleton list) and reminders (defaulting to
`{'useDefault': True}`). -/
def createEventBody (d : EventDraft) : Json :=
  let base : List (String × Json) :=
    [ ("summary", d.summary),
      ("start", .obj [ ("dateTime", .str d.start.isoformat),
                       ("timeZone", .str "America/Los_Angeles") ]),
      ("end", .obj [ ("dateTime", .str d.stop.isoformat),
                     ("timeZone", .str "America/Los_Angeles") ]) ]
  let base := match d.description with
    | some v => base ++ [("description", v)]
    | none => base
  let base := match d.location with
    | some v => base ++ [("location", v)]
    | none => base
  let base := match d.recurrence with
    | some v => base ++ [("recurrence", .arr [v])]
    | none => base
  let base := match d.reminders with
    | some v => base ++ [("reminders", v)]
    | none => base ++ [("reminders", .obj [("useDefault", .bool true)])]
  .obj base

/-- `create_calendar_event(event_data)` (calendar_service.py 110-174):
obtains the write service, builds the request body and issues one
`events().insert` against the configured calendar. -/
def createCalendarEvent (env : Env) (d : EventDraft) :
    List ApiCall × Except String Json :=
  let service := getWriteService
  let body := createEventBody d
  ([.insert service env.calendarId body], env.insertExec body)

/-- The request parameters `search_events` assembles
(calendar_service.py 192-212): `time_min` defaults to
`datetime.now(timezone.utc)`; `singleEvents=True` and
`orderBy='startTime'` are fixed; `timeMax` is sent only when given. -/
def searchParams (env : Env) (query : Json) (maxResults : Nat)
    (timeMin timeMax : Option DT) : ListParams :=
  let tmin := match timeMin with
    | none => env.now
    | some t => t
  { calendarId := env.calendarId, q := query, maxResults := maxResults,
    singleEvents := true, orderBy := "startTime",
    timeMin := toRfc3339 tmin, timeMax := timeMax.map toRfc3339 }

/-- `search_events(query, max_results=100, time_min=None, time_max=None)`
(calendar_service.py 176-218): searches the bot calendar through the
write service with the parameters of `searchParams`.  The result is the
`items` list of the response. -/
def searchEvents (env : Env) (query : Json) (maxResults : Nat)
    (timeMin timeMax : Option DT) : List ApiCall × Except String (List Json) :=
  let service := getWriteService
  ([.listEv service (searchParams env query maxResults timeMin timeMax)],
   env.listExec (searchParams env query maxResults timeMin timeMax))

/-- The seven fields `modify_event` overlays, in the order of its
conditional statements (calendar_service.py 246-271). -/
def updateFields : List String :=
  ["summary", "description", "location", "start", "end", "recurrence", "reminders"]

/-- One conditional overlay statement of `modify_event`: if `key` is
present in `updates`, apply its per-key action to the current event —
plain assignment for `summary`/`description`/`location`/`reminders`,
wrapping in a singleton list for `recurrence`, and the
always-failing `.isoformat()` call for `start`/`end`. -/
def applyField (updates cur : Json) (key : String) : Except String Json := do
  if (← pyIn key updates) then
    let v ← pyGetItem updates key
    if key = "start" ∨ key = "end" then
      .error (attrErrorMsg (jsonTypeName v) "isoformat")
    else if key = "recurrence" then
      pySetItem cur "recurrence" (.arr [v])
    else
      pySetItem cur key v
  else
    pure cur

/-- The field-overlay step of `modify_event` (calendar_service.py
245-271): each of the seven supported fields is copied onto the fetched
event exactly when its key is present in `updates`.  `updates` is the
JSON value the feature layer passes through from the model output, so
the `.isoformat()` calls on `updates['start']`/`updates['end']` always
raise `AttributeError` (a parsed JSON value is never a `datetime`). -/
def applyUpdates (ev updates : Json) : Except String Json :=
  updateFields.foldlM (applyField updates) ev

/-- `modify_event(event_id, updates)` (calendar_service.py 221-281):
read-modify-write through the write service — `events().get`, overlay
the patch fields, `events().update` with the patched event as body. -/
def modifyEvent (env : Env) (eventId : Json) (updates : Json) :
    List ApiCall × Except String Json :=
  let service := getWriteService
  let getCall := ApiCall.getEv service env.calendarId eventId
  match env.getExec eventId with
  | .error e => ([getCall], .error e)
  | .ok fetched =>
    match applyUpdates fetched updates with
    | .error e => ([getCall], .error e)
    | .ok body =>
      ([getCall, .update service env.calendarId eventId body],
       env.updateExec eventId body)

/-! ## Calendar feature handler (`src/features/calendar_feature.py`)
and the standalone extractor (`src/services/gemini_parser.py`). -/

/-- The clarification reply of `CalendarFeature.handle`
(calendar_feature.py 101-105). -/
def clarifyMsg : String :=
  "I couldn't understand your calendar request. Try something like: 'Meeting tomorrow at 3pm' or 'Rename office hours to tutor hours'"

/-- The generic error reply of `CalendarFeature.handle`'s outer handler
(calendar_feature.py 120), with `str(e)` appended. -/
def processErrReply (e : String) : String :=
  "An error occurred while processing your calendar request: " ++ e

/-- The error reply of `_handle_creation`'s outer handler
(calendar_feature.py 372). -/
def creationErrReply (e : String) : String :=
  "An error occurred while creating events: " ++ e

/-- The error reply of `_handle_modification`'s outer handler
(calendar_feature.py 445). -/
def modErrReply (e : String) : String :=
  "An error occurred while modifying events: " ++ e

/-- `CalendarFeature._parse_calendar_request` (calendar_feature.py
122-253), from the model response onward: strip the response, strip an
optional markdown fence, `json.loads` it.  A model-call failure or a
`JSONDecodeError` yields `None`; so does a non-dictionary JSON value,
whose `parsed.get('action')` on line 242 raises `AttributeError` into
the catch-all.  A dictionary is returned as-is — the `action` field is
not checked here. -/
def parseCalendarRequest (modelOutcome : Except String String) : Option Json :=
  match modelOutcome with
  | .error _ => none
  | .ok raw =>
    match stripFenceS (pyStripS raw) with
    | none => none
    | some t =>
      match jsonParse t with
      | none => none
      | some j =>
        match j with
        | .obj _ => some j
        | _ => none

/-- The per-element conversion shared verbatim by
`CalendarFeature._handle_creation` (calendar_feature.py 262-283) and
`parse_message_to_events` (gemini_parser.py 141-162):

  - `.ok (some d)` — the element converted to a draft;
  - `.ok none` — `KeyError`/`ValueError` (missing `start_datetime`/
    `end_datetime`, or a timestamp string `strptime` rejects): the
    element is skipped (`continue`);
  - `.error e` — any other exception (a non-dictionary element's
    `.get`, a non-string timestamp fed to `strptime`), which escapes
    the per-element `except (KeyError, ValueError)` clause. -/
def convertDraftItem (e : Json) : Except String (Option EventDraft) := do
  match e with
  | .obj _ =>
    let summary := match jGet e "summary" with
      | some v => v
      | none => Json.str "Untitled Event"
    let getOpt (k : String) : Option Json :=
      match jGet e k with
      | some v => if truthy v then some v else none
      | none => none
    match jGet e "start_datetime" with
    | none => return none
    | some sv =>
      let ss ← (match sv with
        | .str ss => Except.ok ss
        | _ => .error ("strptime() argument 1 must be str, not " ++ jsonTypeName sv))
      match parseYmdHm ss with
      | none => return none
      | some sdt =>
        match jGet e "end_datetime" with
        | none => return none
        | some ev' =>
          let es ← (match ev' with
            | .str es => Except.ok es
            | _ => .error ("strptime() argument 1 must be str, not " ++ jsonTypeName ev'))
          match parseYmdHm es with
          | none => return none
          | some edt =>
            return some { summary := summary, start := sdt, stop := edt,
                          description := getOpt "description",
                          location := getOpt "location",
                          recurrence := getOpt "recurrence",
                          reminders := getOpt "reminders" }
  | _ => Except.error (attrErrorMsg (jsonTypeName e) "get")

/-- The conversion loop over the raw elements: skipped elements are
dropped, a propagating exception aborts the loop. -/
def collectDrafts : List Json → Except String (List EventDraft)
  | [] => .ok []
  | e :: rest => do
    let d? ← convertDraftItem e
    let ds ← collectDrafts rest
    match d? with
    | some d => pure (d :: ds)
    | none => pure ds

/-- The creation loop of `_handle_creation` (calendar_feature.py
289-296): one `create_calendar_event` per draft, collecting the events
the provider returned and skipping failures. -/
def createLoop (env : Env) : List EventDraft → List ApiCall × List Json
  | [] => ([], [])
  | d :: rest =>
    let (c, res) := createCalendarEvent env d
    let (cs, evs) := createLoop env rest
    match res with
    | .ok ev => (c ++ cs, ev :: evs)
    | .error _ => (c ++ cs, evs)

/-- `datetime.fromisoformat` applied to a JSON value: `TypeError` for
non-strings, `ValueError` for unparseable strings. -/
def fromIsoExcept (v : Json) : Except String DT :=
  match v with
  | .str s =>
    (match fromIsoformat s with
     | some d => .ok d
     | none => .error ("Invalid isoformat string: '" ++ s ++ "'"))
  | _ => .error ("fromisoformat: argument must be str")

/-- The `start`/`end` extraction of the reply builders:
`event['start'].get('dateTime', event['start'].get('date'))` parsed
with `fromisoformat` (calendar_feature.py 305-306 and 342-343). -/
def replyEventTime (ev : Json) (k : String) : Except String DT := do
  let o ← pyGetItem ev k
  let dflt ← pyDictGet o "date" Json.null
  let v ← pyDictGet o "dateTime" dflt
  fromIsoExcept v

/-- The single-event reply of `_handle_creation` (calendar_feature.py
300-336). -/
def buildSingleReply (ev : Json) : Except String String := do
  let sdt ← replyEventTime ev "start"
  let edt ← replyEventTime ev "end"
  let timeStr := fmtTimeRange sdt edt
  let summary ← pyGetItem ev "summary"
  let r := "✓ **" ++ pyStr summary ++ "**\n📅 " ++ timeStr
  let r := if truthy ((jGet ev "recurrence").getD .null) then r ++ "\n🔁 Recurring" else r
  let r := match jGet ev "description" with
    | some dv => if truthy dv then r ++ "\n📝 Description: " ++ pyStr dv else r
    | none => r
  let r := match jGet ev "location" with
    | some lv => if truthy lv then r ++ "\n📍 Location: " ++ pyStr lv else r
    | none => r
  let remJ := (jGet ev "reminders").getD .null
  if truthy remJ then
    let ud ← pyDictGet remJ "useDefault" Json.null
    if ¬ truthy ud then
      let ov ← pyDictGet remJ "overrides" (Json.arr [])
      if truthy ov then
        let elems ← jsonIterElems ov
        let times ← elems.mapM (fun rj => do
          let m ← pyGetItem rj "minutes"
          pure (pyStr m ++ "min"))
        pure (r ++ "\n🔔 Reminders: " ++ String.intercalate ", " times)
      else pure r
    else pure r
  else pure r

/-- One bullet of the multi-event reply (calendar_feature.py 341-361). -/
def buildEventDetail (ev : Json) : Except String String := do
  let sdt ← replyEventTime ev "start"
  let edt ← replyEventTime ev "end"
  let timeStr := fmtTimeRange sdt edt
  let summary ← pyGetItem ev "summary"
  let d := "• **" ++ pyStr summary ++ "**\n  📅 " ++ timeStr
  let d := if truthy ((jGet ev "recurrence").getD .null) then d ++ "\n  🔁 Recurring" else d
  let d := match jGet ev "location" with
    | some lv => if truthy lv then d ++ "\n  📍 " ++ pyStr lv else d
    | none => d
  pure d

/-- The success reply of `_handle_creation` (calendar_feature.py
299-364): the detailed single-event form for exactly one created
event, otherwise an enumerated multi-event summary. -/
def buildCreationReply (created : List Json) : Except String String :=
  match created with
  | [ev] => buildSingleReply ev
  | evs => do
    let details ← evs.mapM buildEventDetail
    pure ("✓ Created " ++ toString evs.length ++ " events:\n\n" ++
          String.intercalate "\n\n" details)

/-- `CalendarFeature._handle_creation(events_data)` (calendar_feature.py
255-372): convert each element (skipping `KeyError`/`ValueError`
elements), report when nothing parsed, create the rest one by one,
and format the reply; any other exception is caught by the outer
handler and turned into an error reply.  Returns the API-call trace
and the reply text. -/
def handleCreation (env : Env) (eventsData : Json) : List ApiCall × String :=
  match jsonIterElems eventsData with
  | .error e => ([], creationErrReply e)
  | .ok elems =>
    match collectDrafts elems with
    | .error e => ([], creationErrReply e)
    | .ok drafts =>
      if drafts.isEmpty then
        ([], "I couldn't parse the event details. Please try again.")
      else
        let (calls, created) := createLoop env drafts
        if created.isEmpty then
          (calls, "Sorry, I couldn't create any calendar events. Please try again.")
        else
          match buildCreationReply created with
          | .ok r => (calls, r)
          | .error e => (calls, creationErrReply e)

/-- Accumulator of the modification loop (calendar_feature.py
398-412): API calls issued so far, `modified_count`,
`modified_events` (the recorded titles) and `is_recurring`. -/
structure ModAcc where
  calls : List ApiCall
  count : Nat
  names : List Json
  recurring : Bool

/-- One iteration of `_handle_modification`'s loop (calendar_feature.py
401-412): `modify_event(event['id'], updates)`, count the success,
record the title, note recurrence; any exception in the iteration is
caught (`continue`), keeping whatever API calls were already issued. -/
def modStep (env : Env) (updates : Json) (acc : ModAcc) (event : Json) : ModAcc :=
  match pyGetItem event "id" with
  | .error _ => acc
  | .ok id =>
    let (mcalls, mres) := modifyEvent env id updates
    let acc := { acc with calls := acc.calls ++ mcalls }
    match mres with
    | .error _ => acc
    | .ok _ =>
      let acc := { acc with count := acc.count + 1 }
      let title? : Except String Json := do
        let dflt ← pyDictGet event "summary" (Json.str "Untitled")
        pyDictGet updates "summary" dflt
      match title? with
      | .error _ => acc
      | .ok title =>
        let acc := { acc with names := acc.names ++ [title] }
        if truthy ((jGet event "recurrence").getD .null) then
          { acc with recurring := true }
        else acc

/-- The `update_lines` block of `_handle_modification`
(calendar_feature.py 417-428). -/
def buildUpdateText (updates : Json) : Except String String := do
  let lines : List String := []
  let lines ← (do
    if (← pyIn "summary" updates) then
      pure (lines ++ ["📝 Title: **" ++ pyStr (← pyGetItem updates "summary") ++ "**"])
    else pure lines)
  let lines ← (do
    if (← pyIn "description" updates) then
      pure (lines ++ ["📝 Description: " ++ pyStr (← pyGetItem updates "description")])
    else pure lines)
  let lines ← (do
    if (← pyIn "location" updates) then
      pure (lines ++ ["📍 Location: " ++ pyStr (← pyGetItem updates "location")])
    else pure lines)
  let lines ← (do
    if (← pyIn "reminders" updates) then
      let rj ← pyGetItem updates "reminders"
      let ov ← pyDictGet rj "overrides" (Json.arr [Json.obj []])
      let first ← (match ov with
        | .arr (x :: _) => Except.ok x
        | .arr [] => .error "list index out of range"
        | .str s =>
          (match s.data with
           | c :: _ => Except.ok (Json.str (String.mk [c]))
           | [] => .error "string index out of range")
        | .obj _ => .error "0"
        | other => .error ("'" ++ jsonTypeName other ++ "' object is not subscriptable"))
      let m ← pyDictGet first "minutes" (Json.num 0)
      pure (lines ++ ["🔔 Reminder: " ++ pyStr m ++ " min before"])
    else pure lines)
  pure (String.intercalate "\n" lines)

/-- `CalendarFeature._handle_modification(search_query, updates)`
(calendar_feature.py 385-445): reject a falsy search query, search the
bot calendar, modify every match (best effort), and format the reply;
any exception escaping to the outer handler becomes an error reply.
Returns the API-call trace and the reply text. -/
def handleModification (env : Env) (searchQuery : Json) (updates : Json) :
    List ApiCall × String :=
  if ¬ truthy searchQuery then
    ([], "I couldn't understand what events you want to modify. Please be more specific.")
  else
    let (calls, res) := searchEvents env searchQuery 100 none none
    match res with
    | .error e => (calls, modErrReply e)
    | .ok matching =>
      if matching.isEmpty then
        (calls, "I couldn't find any events matching '" ++ pyStr searchQuery ++ "'.")
      else
        let acc := matching.foldl (modStep env updates)
          { calls := [], count := 0, names := [], recurring := false }
        let calls := calls ++ acc.calls
        if acc.count > 0 then
          match buildUpdateText updates with
          | .error e => (calls, modErrReply e)
          | .ok updateText =>
            let recurringText := if acc.recurring then "\n🔁 Recurring" else ""
            if acc.count = 1 then
              match acc.names with
              | name :: _ =>
                (calls, "✓ Modified **" ++ pyStr name ++ "**" ++ recurringText ++
                        "\n" ++ updateText)
              | [] => (calls, modErrReply "list index out of range")
            else
              (calls, "✓ Modified " ++ toString acc.count ++ " events" ++
                      recurringText ++ "\n" ++ updateText)
        else
          (calls, "I found matching events but couldn't modify them. Please try again.")

/-- The dispatch of `CalendarFeature.handle` (calendar_feature.py
97-120) on the extractor's result: `None` (or a falsy value) yields the
clarification reply; an `action` of `'modify'` dispatches to
modification, anything else to creation; a `KeyError` from the missing
`action`/`search_query`/`updates`/`events` keys is caught by the outer
handler and becomes the generic error reply. -/
def handleParsed (env : Env) (p : Option Json) : List ApiCall × String :=
  match p with
  | none => ([], clarifyMsg)
  | some parsed =>
    if ¬ truthy parsed then ([], clarifyMsg)
    else
      match pyGetItem parsed "action" with
      | .error e => ([], processErrReply e)
      | .ok act =>
        if act == Json.str "modify" then
          match pyGetItem parsed "search_query" with
          | .error e => ([], processErrReply e)
          | .ok q =>
            match pyGetItem parsed "updates" with
            | .error e => ([], processErrReply e)
            | .ok u => handleModification env q u
        else
          match pyGetItem parsed "events" with
          | .error e => ([], processErrReply e)
          | .ok evs => handleCreation env evs

/-- `CalendarFeature.handle` (calendar_feature.py 85-120) from the
model response onward: parse, then dispatch. -/
def handle (env : Env) (modelOutcome : Except String String) :
    List ApiCall × String :=
  handleParsed env (parseCalendarRequest modelOutcome)

/-- `parse_message_to_events` (gemini_parser.py 117-175) from the model
response onward: strip, strip an optional fence, `json.loads`; a
model-call failure, a `JSONDecodeError`, or any exception escaping the
conversion loop (a non-sized value fed to `len`, a non-iterable, a
non-dictionary element, a non-string timestamp) yields `[]`;
`KeyError`/`ValueError` elements are skipped individually. -/
def parseMessageToEvents (modelOutcome : Except String String) : List EventDraft :=
  match modelOutcome with
  | .error _ => []
  | .ok raw =>
    match stripFenceS (pyStripS raw) with
    | none => []
    | some t =>
      match jsonParse t with
      | none => []
      | some j =>
        match pyLen j with
        | .error _ => []
        | .ok _ =>
          match jsonIterElems j with
          | .error _ => []
          | .ok elems =>
            match collectDrafts elems with
            | .error _ => []
            | .ok ds => ds

/-! ## Webhook transport (`src/app.py`) -/

/-- The `/webhook` endpoint (app.py 10-31): reads the form fields
`Body` (default `''`) and `From` (default `''`), strips the body;
an empty stripped body yields `('', 200)` without invoking the
handler; otherwise the handler's reply is returned with 200; any
exception from the handler yields `('', 500)`.  The
`handle_incoming_message` collaborator (not part of this source tree)
is abstracted as the `handler` argument. -/
def webhook (body sender : Option String)
    (handler : String → String → Except String String) : String × Nat :=
  let incomingMsg := pyStripS (body.getD "")
  let fromSender := sender.getD ""
  if incomingMsg = "" then ("", 200)
  else
    match handler incomingMsg fromSender with
    | .ok response => (response, 200)
    | .error _ => ("", 500)

/-- The `/health` endpoint (app.py 33-36): a fixed healthy status with
200. -/
def health : Json × Nat :=
  (Json.obj [("status", Json.str "healthy")], 200)

/-! ## Concrete test data used by witnesses and counterexamples -/

/-- A fixed `datetime.now(timezone.utc)` value. -/
def utcFeb17 : DT :=
  { year := 2026, month := 2, day := 17, hour := 8, minute := 0, second := 0,
    tzMin := some 0 }

/-- A concrete environment over an accept-everything provider: inserts
and updates echo their body, the search returns `items`, `events().get`
returns `fetch` of the id. -/
def echoEnv (items : List Json) (fetch : Json → Except String Json) : Env :=
  { calendarId := "primary", now := utcFeb17,
    insertExec := fun b => .ok b,
    listExec := fun _ => .ok items,
    getExec := fetch,
    updateExec := fun _ b => .ok b }

/-- A concrete environment whose provider rejects everything. -/
def failEnv : Env :=
  { calendarId := "primary", now := utcFeb17,
    insertExec := fun _ => .error "boom",
    listExec := fun _ => .error "boom",
    getExec := fun _ => .error "boom",
    updateExec := fun _ _ => .error "boom" }

/-- Did the computation finish without a propagating exception? -/
def exceptOk {α : Type} : Except String α → Bool
  | .ok _ => true
  | .error _ => false

/-- The draft an element converts to, if any: `none` both for skipped
elements and for elements whose conversion raises. -/
def draftOf (e : Json) : Option EventDraft :=
  match convertDraftItem e with
  | .ok (some d) => some d
  | _ => none

/-! ## C9 — search request defaults -/

/-- C9: `search_events` with no explicit window sends a request whose
lower time bound is the current time, ordered by start time ascending,
capped at the `max_results` default of 100, with no upper bound; an
explicit `time_min`/`time_max` pair is used instead of the defaults. -/
theorem c9_search_request (env : Env) (query : Json) (t1 t2 : DT) :
    (searchEvents env query 100 none none).1 =
      [ApiCall.listEv getWriteService
        { calendarId := env.calendarId, q := query, maxResults := 100,
          singleEvents := true, orderBy := "startTime",
          timeMin := toRfc3339 env.now, timeMax := none }] ∧
    (searchEvents env query 100 (some t1) (some t2)).1 =
      [ApiCall.listEv getWriteService
        { calendarId := env.calendarId, q := query, maxResults := 100,
          singleEvents := true, orderBy := "startTime",
          timeMin := toRfc3339 t1, timeMax := some (toRfc3339 t2) }] :=
  ⟨rfl, rfl⟩

/-! ## C8 — webhook transport contract -/

/-- C8: the webhook returns an empty 200 for an empty or missing
(stripped) `Body`, the handler's reply with 200 otherwise, an empty 500
when the handler raises; the liveness endpoint is a fixed healthy 200. -/
theorem c8_webhook_contract :
    (∀ (body sender : Option String) handler,
      pyStripS (body.getD "") = "" → webhook body sender handler = ("", 200)) ∧
    (∀ (body sender : Option String) handler r,
      pyStripS (body.getD "") ≠ "" →
      handler (pyStripS (body.getD "")) (sender.getD "") = .ok r →
      webhook body sender handler = (r, 200)) ∧
    (∀ (body sender : Option String) handler e,
      pyStripS (body.getD "") ≠ "" →
      handler (pyStripS (body.getD "")) (sender.getD "") = .error e →
      webhook body sender handler = ("", 500)) ∧
    health = (Json.obj [("status", Json.str "healthy")], 200) := by
  refine ⟨?_, ?_, ?_, rfl⟩
  · intro body sender handler h
    simp [webhook, h]
  · intro body sender handler r h hh
    simp [webhook, h, hh]
  · intro body sender handler e h hh
    simp [webhook, h, hh]

/-- Witness for C8 at concrete requests. -/
theorem c8_webhook_contract_witness :
    webhook (some "  ") (some "w1") (fun _ _ => .ok "hi") = ("", 200) ∧
    webhook (some " hello ") (some "w1") (fun m _ => .ok ("echo " ++ m)) = ("echo hello", 200) ∧
    webhook (some "hello") none (fun _ _ => .error "boom") = ("", 500) :=
  ⟨c8_webhook_contract.1 (some "  ") (some "w1") _ rfl,
   c8_webhook_contract.2.1 (some " hello ") (some "w1") _ "echo hello" (by decide) rfl,
   c8_webhook_contract.2.2.1 (some "hello") none _ "boom" (by decide) rfl⟩

/-! ## C5 — credential-scope isolation -/

lemma modifyEvent_calls_write (env : Env) (id u : Json) :
    ∀ c ∈ (modifyEvent env id u).1, c.cred = getWriteService := by
  intro c hc
  unfold modifyEvent at hc
  rcases hg : env.getExec id with e | fetched <;> simp only [hg] at hc
  · simp at hc
    subst hc
    rfl
  · rcases ha : applyUpdates fetched u with e | body <;> simp only [ha] at hc <;>
      simp at hc
    · subst hc
      rfl
    · rcases hc with hc | hc <;> subst hc <;> rfl

lemma createLoop_calls (env : Env) (d : EventDraft) (rest : List EventDraft) :
    (createLoop env (d :: rest)).1 =
      ApiCall.insert getWriteService env.calendarId (createEventBody d) ::
        (createLoop env rest).1 := by
  show (let (c, res) := createCalendarEvent env d
        let (cs, evs) := createLoop env rest
        match res with
        | .ok ev => (c ++ cs, ev :: evs)
        | .error _ => (c ++ cs, evs)).1 = _
  rcases h : env.insertExec (createEventBody d) with e | ev <;>
    simp [createCalendarEvent, h]

lemma createLoop_calls_write (env : Env) (ds : List EventDraft) :
    ∀ c ∈ (createLoop env ds).1, c.cred = getWriteService := by
  induction ds with
  | nil => simp [createLoop]
  | cons d rest ih =>
    intro c hc
    rw [createLoop_calls] at hc
    rcases List.mem_cons.mp hc with hc | hc
    · subst hc
      rfl
    · exact ih c hc

lemma handleCreation_calls_write (env : Env) (eventsData : Json) :
    ∀ c ∈ (handleCreation env eventsData).1, c.cred = getWriteService := by
  intro c hc
  unfold handleCreation at hc
  rcases hi : jsonIterElems eventsData with e | elems <;> simp only [hi] at hc
  · simp at hc
  · rcases hd : collectDrafts elems with e | drafts <;> simp only [hd] at hc
    · simp at hc
    · cases he : drafts.isEmpty <;> simp only [he] at hc
      · rcases hl : createLoop env drafts with ⟨calls, created⟩
        simp only [hl] at hc
        have hcw : ∀ c ∈ calls, c.cred = getWriteService := by
          have := createLoop_calls_write env drafts
          rw [hl] at this
          exact this
        cases hcr : created.isEmpty <;> simp only [hcr] at hc
        · rcases hb : buildCreationReply created with e | r <;>
            simp only [hb] at hc <;> simp at hc <;> exact hcw c hc
        · simp at hc
          exact hcw c hc
      · simp at hc

lemma modStep_calls (env : Env) (u : Json) (acc : ModAcc) (ev : Json) :
    ∀ c ∈ (modStep env u acc ev).calls,
      c ∈ acc.calls ∨ c.cred = getWriteService := by
  intro c hc
  unfold modStep at hc
  rcases hid : pyGetItem ev "id" with e | id <;> simp only [hid] at hc
  · exact .inl hc
  · rcases hm : modifyEvent env id u with ⟨mcalls, mres⟩
    simp only [hm] at hc
    have hmw : ∀ c ∈ mcalls, c.cred = getWriteService := by
      have := modifyEvent_calls_write env id u
      rw [hm] at this
      exact this
    rcases mres with e | r <;> simp only [] at hc
    · simp at hc
      rcases hc with hc | hc
      · exact .inl hc
      · exact .inr (hmw c hc)
    · rcases ht : (do
        let dflt ← pyDictGet ev "summary" (Json.str "Untitled")
        pyDictGet u "summary" dflt : Except String Json) with e | title <;>
        simp only [ht] at hc
      · simp at hc
        rcases hc with hc | hc
        · exact .inl hc
        · exact .inr (hmw c hc)
      · cases hr : truthy ((jGet ev "recurrence").getD .null) <;>
          simp only [hr] at hc <;> simp at hc <;>
          rcases hc with hc | hc
        · exact .inl hc
        · exact .inr (hmw c hc)
        · exact .inl hc
        · exact .inr (hmw c hc)

lemma foldl_modStep_calls (env : Env) (u : Json) (l : List Json) :
    ∀ (acc : ModAcc) (c : ApiCall), c ∈ (l.foldl (modStep env u) acc).calls →
      c ∈ acc.calls ∨ c.cred = getWriteService := by
  induction l with
  | nil => intro acc c hc; exact .inl hc
  | cons ev rest ih =>
    intro acc c hc
    rcases ih (modStep env u acc ev) c hc with h | h
    · exact modStep_calls env u acc ev c h
    · exact .inr h

lemma handleModification_calls_write (env : Env) (q u : Json) :
    ∀ c ∈ (handleModification env q u).1, c.cred = getWriteService := by
  intro c hc
  have haccw : ∀ (l : List Json) (c : ApiCall),
      c ∈ (l.foldl (modStep env u)
        { calls := [], count := 0, names := [], recurring := false }).calls →
      c.cred = getWriteService := by
    intro l c hcc
    rcases foldl_modStep_calls env u l _ c hcc with h | h
    · simp at h
    · exact h
  unfold handleModification at hc
  dsimp only [searchEvents] at hc
  repeat' split at hc
  all_goals
    first
    | exact absurd hc (List.not_mem_nil c)
    | (rw [List.mem_singleton] at hc; subst hc; rfl)
    | (rcases List.mem_append.mp hc with h | h;
       · rw [List.mem_singleton] at h; subst h; rfl
       · exact haccw _ c h)

/-- C5: every mutation call — the insert issued by
`create_calendar_event`, the update issued by `modify_event`, and every
mutation reachable through the feature handler — is issued through the
write-scoped bot credential (`get_write_service`), never through the
broad read-only credential (`get_read_service`); the two credentials
are distinct. -/
theorem c5_write_credential :
    (∀ (env : Env) (d : EventDraft) (c : ApiCall),
      c ∈ (createCalendarEvent env d).1 → c.cred = getWriteService) ∧
    (∀ (env : Env) (id u : Json) (c : ApiCall),
      c ∈ (modifyEvent env id u).1 → c.cred = getWriteService) ∧
    (∀ (env : Env) (p : Option Json) (c : ApiCall),
      c ∈ (handleParsed env p).1 → c.cred = getWriteService) ∧
    getReadService ≠ getWriteService := by
  refine ⟨?_, ?_, ?_, by decide⟩
  · intro env d c hc
    simp [createCalendarEvent] at hc
    simp [hc, ApiCall.cred]
  · exact fun env id u c hc => modifyEvent_calls_write env id u c hc
  · intro env p c hc
    unfold handleParsed at hc
    rcases p with _ | parsed
    · simp at hc
    · repeat' split at hc
      all_goals
        first
        | exact absurd hc (List.not_mem_nil c)
        | exact handleCreation_calls_write env _ c hc
        | exact handleModification_calls_write env _ _ c hc

/-- A concrete `datetime(2026, 2, 18, 15, 0)`. -/
def dtFeb18at15 : DT :=
  { year := 2026, month := 2, day := 18, hour := 15, minute := 0, second := 0,
    tzMin := none }

/-- A concrete `datetime(2026, 2, 18, 16, 0)`. -/
def dtFeb18at16 : DT :=
  { year := 2026, month := 2, day := 18, hour := 16, minute := 0, second := 0,
    tzMin := none }

/-- A concrete event draft. -/
def meetingDraft : EventDraft :=
  { summary := Json.str "Meeting", start := dtFeb18at15, stop := dtFeb18at16,
    description := none, location := none, recurrence := none,
    reminders := none }

/-- Witness for C5: the concrete insert call of a concrete creation
carries the write credential. -/
theorem c5_write_credential_witness :
    (ApiCall.insert getWriteService "primary" (createEventBody meetingDraft)) ∈
      (createCalendarEvent (echoEnv [] (fun _ => .error "x")) meetingDraft).1 ∧
    (ApiCall.insert getWriteService "primary"
      (createEventBody meetingDraft)).cred = getWriteService := by
  constructor
  · simp [createCalendarEvent, echoEnv]
  · exact c5_write_credential.1 (echoEnv [] (fun _ => .error "x")) meetingDraft
      (ApiCall.insert getWriteService "primary" (createEventBody meetingDraft))
      (by simp [createCalendarEvent, echoEnv])

/-! ## C2 — update overlays only patch fields -/

lemma lookupField_assocSet_ne (fields : List (String × Json)) (k k' : String)
    (v : Json) (h : k ≠ k') :
    lookupField (assocSet fields k' v) k = lookupField fields k := by
  induction fields with
  | nil =>
    have hne : ¬ k' = k := fun he => h he.symm
    simp [assocSet, lookupField, hne]
  | cons p rest ih =>
    rcases p with ⟨pk, pv⟩
    by_cases hp : pk = k'
    · subst hp
      have hne : ¬ pk = k := fun he => h he.symm
      simp [assocSet, lookupField, hne]
    · by_cases hk2 : pk = k
      · subst hk2
        simp [assocSet, hp, lookupField]
      · simp [assocSet, hp, lookupField, hk2, ih]

lemma jGet_pySetItem_ne (j j2 : Json) (k k' : String) (v : Json)
    (hset : pySetItem j k' v = .ok j2) (h : k ≠ k') :
    jGet j2 k = jGet j k := by
  rcases j with _ | _ | _ | _ | _ | _ | fields <;> simp [pySetItem] at hset
  subst hset
  simp [jGet]
  exact lookupField_assocSet_ne fields k k' v h

lemma applyField_frame (updates cur cur2 : Json) (key k : String)
    (hstep : applyField updates cur key = .ok cur2)
    (hk : pyIn k updates = .ok false) :
    jGet cur2 k = jGet cur k := by
  unfold applyField at hstep
  rcases hin : pyIn key updates with e | b <;>
    simp only [hin, bind, Except.bind] at hstep
  · exact absurd hstep (by simp)
  · rcases b with _ | _
    · rw [if_neg (by simp)] at hstep
      simp only [pure, Except.pure, Except.ok.injEq] at hstep
      subst hstep
      rfl
    · rw [if_pos rfl] at hstep
      have hkey : key ≠ k := by
        intro he
        subst he
        rw [hin] at hk
        simp at hk
      rcases hget : pyGetItem updates key with e | v <;>
        simp only [hget, bind, Except.bind] at hstep
      · exact absurd hstep (by simp)
      · split at hstep
        · exact absurd hstep (by simp)
        · split at hstep
          · exact jGet_pySetItem_ne cur cur2 k "recurrence" (.arr [v]) hstep
              (by rename_i hrec; rw [hrec] at hkey; exact fun he => hkey he.symm)
          · exact jGet_pySetItem_ne cur cur2 k key v hstep
              (fun he => hkey he.symm)

lemma applyUpdates_chain_frame (updates : Json) (keys : List String)
    (k : String) (hk : pyIn k updates = .ok false) :
    ∀ (cur cur2 : Json), keys.foldlM (applyField updates) cur = .ok cur2 →
      jGet cur2 k = jGet cur k := by
  induction keys with
  | nil =>
    intro cur cur2 h
    simp [List.foldlM, pure, Except.pure] at h
    subst h
    rfl
  | cons key rest ih =>
    intro cur cur2 h
    rw [List.foldlM_cons] at h
    rcases hstep : applyField updates cur key with e | mid <;>
      rw [hstep] at h <;> simp only [bind, Except.bind] at h
    · exact absurd h (by simp)
    · exact (ih mid cur2 h).trans (applyField_frame updates cur mid key k hstep hk)

/-- C2: `modify_event` is read-modify-write — it fetches the current
event, overlays only the patch fields, and writes the result back as
the update body; every field whose key is not in the patch has the same
value in the written-back body as in the fetched event. -/
theorem c2_modify_frame (env : Env) (eventId updates fetched body : Json)
    (hget : env.getExec eventId = .ok fetched)
    (happly : applyUpdates fetched updates = .ok body) :
    modifyEvent env eventId updates =
      ([ApiCall.getEv getWriteService env.calendarId eventId,
        ApiCall.update getWriteService env.calendarId eventId body],
       env.updateExec eventId body) ∧
    ∀ k, pyIn k updates = .ok false → jGet body k = jGet fetched k := by
  constructor
  · unfold modifyEvent
    simp only [hget, happly]
  · intro k hk
    exact applyUpdates_chain_frame updates updateFields k hk fetched body happly

/-- A concrete fetched event for the C2 witness: summary "Office
Hours", location "Room 1". -/
def officeHoursEvent : Json :=
  Json.obj [("id", Json.str "e1"), ("summary", Json.str "Office Hours"),
    ("location", Json.str "Room 1")]

/-- A concrete patch renaming the event. -/
def renamePatch : Json :=
  Json.obj [("summary", Json.str "Tutor Hours")]

/-- The overlay of `renamePatch` on `officeHoursEvent`. -/
def renamedEvent : Json :=
  Json.obj [("id", Json.str "e1"), ("summary", Json.str "Tutor Hours"),
    ("location", Json.str "Room 1")]

/-- Witness for C2 at the spec's own example: patching only `summary`
updates the summary and leaves `location` (and `id`) as they were. -/
theorem c2_modify_frame_witness :
    modifyEvent (echoEnv [] (fun _ => .ok officeHoursEvent)) (Json.str "e1")
        renamePatch =
      ([ApiCall.getEv getWriteService "primary" (Json.str "e1"),
        ApiCall.update getWriteService "primary" (Json.str "e1") renamedEvent],
       .ok renamedEvent) ∧
    jGet renamedEvent "location" = jGet officeHoursEvent "location" ∧
    jGet renamedEvent "location" = some (Json.str "Room 1") ∧
    jGet renamedEvent "summary" = some (Json.str "Tutor Hours") := by
  have h := c2_modify_frame (echoEnv [] (fun _ => .ok officeHoursEvent))
    (Json.str "e1") renamePatch officeHoursEvent renamedEvent rfl rfl
  exact ⟨h.1, h.2 "location" rfl, rfl, rfl⟩

/-! ## C1 — extractor null-contract and clarification reply -/

/-- Counterexample for C1: a model response that is valid JSON but
lacks the `action` discriminator.  The extractor does not return
`None` for it (it returns the parsed dictionary), and the handler's
reply is the generic error message produced by the caught `KeyError`
(`'action'`), not the clarification message. -/
theorem c1_counterexample :
    parseCalendarRequest (.ok "\x7b\"foo\": 1\x7d") =
      some (Json.obj [("foo", Json.num 1)]) ∧
    (handle failEnv (.ok "\x7b\"foo\": 1\x7d")).2 =
      processErrReply (keyErrorMsg "action") ∧
    (handle failEnv (.ok "\x7b\"foo\": 1\x7d")).2 ≠ clarifyMsg := by
  refine ⟨rfl, rfl, ?_⟩
  decide

/-- C1 as amended: a model-call failure or a JSON parse failure (or a
non-dictionary JSON value) makes the extractor return `None` and the
handler reply with the clarification message; but a parsed dictionary
lacking `action` is returned as-is by the extractor, and the handler
then replies with the generic error message rendered from the
`KeyError` (the clarification message appears only for a falsy —
empty — dictionary). -/
theorem c1_amended (mo : Except String String) (env : Env) :
    (parseCalendarRequest mo = none → handle env mo = ([], clarifyMsg)) ∧
    (∀ fields, parseCalendarRequest mo = some (Json.obj fields) →
      fields.isEmpty = true → handle env mo = ([], clarifyMsg)) ∧
    (∀ fields, parseCalendarRequest mo = some (Json.obj fields) →
      fields.isEmpty = false → lookupField fields "action" = none →
      handle env mo = ([], processErrReply (keyErrorMsg "action"))) := by
  refine ⟨?_, ?_, ?_⟩
  · intro h
    unfold handle
    rw [h]
    rfl
  · intro fields h hemp
    unfold handle
    rw [h]
    unfold handleParsed
    simp [truthy, hemp]
  · intro fields h hemp hact
    unfold handle
    rw [h]
    unfold handleParsed
    simp [truthy, hemp, pyGetItem, hact]

/-- Witness for C1's amended statement at concrete responses. -/
theorem c1_amended_witness :
    parseCalendarRequest (.ok "this is not json") = none ∧
    handle failEnv (.ok "this is not json") = ([], clarifyMsg) ∧
    parseCalendarRequest (.ok "\x7b\"foo\": 1\x7d") =
      some (Json.obj [("foo", Json.num 1)]) ∧
    handle failEnv (.ok "\x7b\"foo\": 1\x7d") =
      ([], processErrReply (keyErrorMsg "action")) := by
  refine ⟨rfl, ?_, rfl, ?_⟩
  · exact (c1_amended (.ok "this is not json") failEnv).1 rfl
  · exact (c1_amended (.ok "\x7b\"foo\": 1\x7d") failEnv).2.2 [("foo", Json.num 1)]
      rfl rfl rfl

/-! ## C3 — no start < end validation on the create path -/

/-- The optional-field selection of the conversion loop: the value when
present and truthy. -/
def jOptTruthy (fields : List (String × Json)) (k : String) : Option Json :=
  match lookupField fields k with
  | some v => if truthy v then some v else none
  | none => none

/-- The draft produced for an object element whose two timestamps
parsed to `sdt` and `edt`. -/
def draftFields (fields : List (String × Json)) (sdt edt : DT) : EventDraft :=
  { summary := match lookupField fields "summary" with
      | some v => v
      | none => Json.str "Untitled Event",
    start := sdt, stop := edt,
    description := jOptTruthy fields "description",
    location := jOptTruthy fields "location",
    recurrence := jOptTruthy fields "recurrence",
    reminders := jOptTruthy fields "reminders" }

/-- A concrete element whose parsed start (16:00) is after its parsed
end (15:00). -/
def badTimeElem : Json :=
  Json.obj [("summary", Json.str "X"),
    ("start_datetime", Json.str "2026-02-18 16:00"),
    ("end_datetime", Json.str "2026-02-18 15:00")]

/-- The draft `badTimeElem` converts to. -/
def badTimeDraft : EventDraft :=
  { summary := Json.str "X", start := dtFeb18at16, stop := dtFeb18at15,
    description := none, location := none, recurrence := none,
    reminders := none }

/-- Counterexample for C3: a draft whose parsed start is not strictly
before its parsed end is accepted by the create path — it is converted
(not rejected or skipped) and a calendar-creation call is issued for
it. -/
theorem c3_counterexample :
    convertDraftItem badTimeElem = .ok (some badTimeDraft) ∧
    ¬ DT.lt badTimeDraft.start badTimeDraft.stop ∧
    (handleCreation (echoEnv [] (fun _ => .error "x"))
        (Json.arr [badTimeElem])).1 =
      [ApiCall.insert getWriteService "primary" (createEventBody badTimeDraft)] := by
  refine ⟨rfl, ?_, rfl⟩
  decide

/-- C3 as amended: the create path validates only that
`start_datetime`/`end_datetime` are present and parse with `strptime`;
it never compares them, so any element with two parseable timestamps —
in particular one with start ≥ end — is converted and sent to the
provider as an insert. -/
theorem c3_amended (env : Env) (fields : List (String × Json))
    (ss es : String) (sdt edt : DT)
    (hs : lookupField fields "start_datetime" = some (Json.str ss))
    (hps : parseYmdHm ss = some sdt)
    (hee : lookupField fields "end_datetime" = some (Json.str es))
    (hpe : parseYmdHm es = some edt) :
    convertDraftItem (Json.obj fields) =
      .ok (some (draftFields fields sdt edt)) ∧
    (handleCreation env (Json.arr [Json.obj fields])).1 =
      [ApiCall.insert getWriteService env.calendarId
        (createEventBody (draftFields fields sdt edt))] := by
  have hc : convertDraftItem (Json.obj fields) =
      .ok (some (draftFields fields sdt edt)) := by
    unfold convertDraftItem
    simp only [jGet, hs, hee, bind, Except.bind, hps, hpe, pure, Except.pure]
    rfl
  refine ⟨hc, ?_⟩
  have hcollect : collectDrafts [Json.obj fields] =
      .ok [draftFields fields sdt edt] := by
    unfold collectDrafts
    rw [hc]
    rfl
  have htr : (createLoop env [draftFields fields sdt edt]).1 =
      [ApiCall.insert getWriteService env.calendarId
        (createEventBody (draftFields fields sdt edt))] := by
    rw [createLoop_calls]
    rfl
  unfold handleCreation
  simp only [jsonIterElems, hcollect, List.isEmpty_cons, Bool.false_eq_true,
    if_false]
  rcases hcl : createLoop env [draftFields fields sdt edt] with ⟨calls, created⟩
  rw [hcl] at htr
  split
  · exact htr
  · split <;> exact htr

/-- Witness for C3's amended statement: the violating concrete element
(start 16:00, end 15:00) satisfies the hypotheses, is converted, and
one insert is issued for it. -/
theorem c3_amended_witness :
    convertDraftItem badTimeElem = .ok (some badTimeDraft) ∧
    (handleCreation (echoEnv [] (fun _ => .error "x"))
        (Json.arr [badTimeElem])).1 =
      [ApiCall.insert getWriteService "primary"
        (createEventBody badTimeDraft)] := by
  have h := c3_amended (echoEnv [] (fun _ => .error "x"))
    [("summary", Json.str "X"),
     ("start_datetime", Json.str "2026-02-18 16:00"),
     ("end_datetime", Json.str "2026-02-18 15:00")]
    "2026-02-18 16:00" "2026-02-18 15:00" dtFeb18at16 dtFeb18at15
    rfl rfl rfl rfl
  exact h

/-! ## C6 — empty updates map is not rejected -/

/-- The search parameters of the modification path's
`search_events(search_query)` call. -/
def searchParamsFor (env : Env) (q : Json) : ListParams :=
  searchParams env q 100 none none

/-- Overlaying an empty patch changes nothing and raises nothing. -/
lemma applyUpdates_empty (fetched : Json) :
    applyUpdates fetched (Json.obj []) = .ok fetched := rfl

/-- The environment of the C6 counterexample: one matching event. -/
def c6Env : Env := echoEnv [officeHoursEvent] (fun _ => .ok officeHoursEvent)

/-- Counterexample for C6: a Modify request with an empty updates map is
processed, not rejected — an `events().update` call (a mutation) is
issued against the calendar, and a success reply is reported. -/
theorem c6_counterexample :
    handleModification c6Env (Json.str "office hours") (Json.obj []) =
      ([ApiCall.listEv getWriteService
          (searchParamsFor c6Env (Json.str "office hours")),
        ApiCall.getEv getWriteService "primary" (Json.str "e1"),
        ApiCall.update getWriteService "primary" (Json.str "e1")
          officeHoursEvent],
       "✓ Modified **Office Hours**\n") ∧
    (ApiCall.update getWriteService "primary" (Json.str "e1")
        officeHoursEvent).isMutation = true := by
  exact ⟨rfl, rfl⟩

/-- C6 as amended: a falsy (empty) `search_query` is rejected, but an
empty `updates` map is not — for a matched event the handler still
issues the read and the write-back (with the event unchanged) and
reports a success reply. -/
theorem c6_amended :
    (∀ (env : Env) (updates : Json),
      handleModification env (Json.str "") updates =
        ([], "I couldn't understand what events you want to modify. Please be more specific.")) ∧
    (∀ (env : Env) (q ev : Json) (evf : List (String × Json))
      (id sumv fetched : Json),
      truthy q = true →
      env.listExec (searchParamsFor env q) = .ok [ev] →
      ev = Json.obj evf →
      lookupField evf "id" = some id →
      lookupField evf "summary" = some sumv →
      lookupField evf "recurrence" = none →
      env.getExec id = .ok fetched →
      env.updateExec id fetched = .ok fetched →
      handleModification env q (Json.obj []) =
        ([ApiCall.listEv getWriteService (searchParamsFor env q),
          ApiCall.getEv getWriteService env.calendarId id,
          ApiCall.update getWriteService env.calendarId id fetched],
         "✓ Modified **" ++ pyStr sumv ++ "**" ++ "\n")) := by
  constructor
  · intro env updates
    rfl
  · intro env q ev evf id sumv fetched hq hl hev hid hsum hrec hget hupd
    subst hev
    have hstep : modStep env (Json.obj [])
        { calls := [], count := 0, names := [], recurring := false }
        (Json.obj evf) =
        { calls := [ApiCall.getEv getWriteService env.calendarId id,
            ApiCall.update getWriteService env.calendarId id fetched],
          count := 1, names := [sumv], recurring := false } := by
      unfold modStep
      simp only [pyGetItem, hid]
      unfold modifyEvent
      simp only [hget, applyUpdates_empty, hupd, pyDictGet, hsum, bind,
        Except.bind, jGet, hrec]
      rfl
    unfold handleModification
    rw [if_neg (by simp [hq])]
    unfold searchEvents
    rw [show searchParams env q 100 none none = searchParamsFor env q from rfl,
        hl]
    simp only [List.isEmpty_cons, Bool.false_eq_true, if_false, List.foldl,
      hstep]
    rw [if_pos (by decide : (1 : Nat) > 0)]
    rw [show buildUpdateText (Json.obj []) = .ok "" from rfl]
    simp [String.append_empty]

/-- Witness for C6's amended statement at the concrete environment. -/
theorem c6_amended_witness :
    handleModification c6Env (Json.str "") (Json.obj []) =
      ([], "I couldn't understand what events you want to modify. Please be more specific.") ∧
    handleModification c6Env (Json.str "office hours") (Json.obj []) =
      ([ApiCall.listEv getWriteService
          (searchParamsFor c6Env (Json.str "office hours")),
        ApiCall.getEv getWriteService "primary" (Json.str "e1"),
        ApiCall.update getWriteService "primary" (Json.str "e1")
          officeHoursEvent],
       "✓ Modified **" ++ pyStr (Json.str "Office Hours") ++ "**" ++ "\n") := by
  constructor
  · exact c6_amended.1 c6Env (Json.obj [])
  · exact c6_amended.2 c6Env (Json.str "office hours") officeHoursEvent
      [("id", Json.str "e1"), ("summary", Json.str "Office Hours"),
       ("location", Json.str "Room 1")]
      (Json.str "e1") (Json.str "Office Hours") officeHoursEvent
      rfl rfl rfl rfl rfl rfl rfl rfl

/-! ## C4 / C10 — batch conversion: skipping and aborting -/

lemma collectDrafts_eq_filterMap (elems : List Json)
    (h : ∀ e ∈ elems, exceptOk (convertDraftItem e) = true) :
    collectDrafts elems = .ok (elems.filterMap draftOf) := by
  induction elems with
  | nil => rfl
  | cons e rest ih =>
    have he : exceptOk (convertDraftItem e) = true := h e (by simp)
    have hrest := ih (fun e' he' => h e' (by simp [he']))
    rcases hc : convertDraftItem e with err | d? <;> rw [hc] at he
    · simp [exceptOk] at he
    · unfold collectDrafts
      rw [hc, hrest]
      rcases d? with _ | d <;>
        simp [bind, Except.bind, pure, Except.pure, List.filterMap_cons,
          draftOf, hc]

lemma createLoop_echo (env : Env) (hecho : ∀ b, env.insertExec b = .ok b) :
    ∀ ds : List EventDraft,
      createLoop env ds =
        (ds.map (fun d => ApiCall.insert getWriteService env.calendarId
          (createEventBody d)),
         ds.map createEventBody) := by
  intro ds
  induction ds with
  | nil => rfl
  | cons d rest ih =>
    show (let (c, res) := createCalendarEvent env d
          let (cs, evs) := createLoop env rest
          match res with
          | .ok ev => (c ++ cs, ev :: evs)
          | .error _ => (c ++ cs, evs)) = _
    simp [createCalendarEvent, hecho, ih]

lemma headPrefix (p s : String) (c : Char) (hp : p.data.head? = some c) :
    (p ++ s).data.head? = some c := by
  rw [String.data_append]
  cases hd : p.data with
  | nil => rw [hd] at hp; cases hp
  | cons a t => rw [hd] at hp; simpa using hp

lemma ne_of_headChar (r s : String) (c : Char) (h : r.data.head? = some c)
    (hs : s.data.head? ≠ some c) : r ≠ s := by
  intro he
  rw [he] at h
  exact hs h

lemma buildSingleReply_head (ev : Json) (r : String)
    (h : buildSingleReply ev = .ok r) : r.data.head? = some (Char.ofNat 10003) := by
  unfold buildSingleReply at h
  simp only [bind, Except.bind] at h
  repeat' split at h
  all_goals
    first
    | exact absurd h (by simp)
    | (simp only [pure, Except.pure, Except.ok.injEq] at h; subst h;
       repeat' first | (apply headPrefix) | rfl)

lemma buildCreationReply_head (created : List Json) (r : String)
    (h : buildCreationReply created = .ok r) :
    r.data.head? = some (Char.ofNat 10003) := by
  match created with
  | [ev] => exact buildSingleReply_head ev r h
  | [] =>
    rw [show buildCreationReply ([] : List Json) =
      .ok ("✓ Created " ++ toString (0 : Nat) ++ " events:\n\n" ++
        String.intercalate "\n\n" []) from rfl] at h
    simp only [Except.ok.injEq] at h
    subst h
    repeat' first | (apply headPrefix) | rfl
  | ev1 :: ev2 :: rest =>
    unfold buildCreationReply at h
    rcases hm : List.mapM buildEventDetail (ev1 :: ev2 :: rest)
        with e | details <;> simp only [hm, bind, Except.bind] at h
    · exact absurd h (by simp)
    · simp only [pure, Except.pure, Except.ok.injEq] at h
      subst h
      repeat' first | (apply headPrefix) | rfl

/-- C4 and C10 shared data: a valid first element. -/
def elemA : Json :=
  Json.obj [("summary", Json.str "A"),
    ("start_datetime", Json.str "2026-02-18 15:00"),
    ("end_datetime", Json.str "2026-02-18 16:00")]

/-- The draft `elemA` converts to. -/
def draftA : EventDraft :=
  { summary := Json.str "A", start := dtFeb18at15, stop := dtFeb18at16,
    description := none, location := none, recurrence := none,
    reminders := none }

/-- An element whose `start_datetime` is JSON `null` — a timestamp
`strptime` cannot parse, raising `TypeError` rather than `ValueError`. -/
def elemBadNull : Json :=
  Json.obj [("summary", Json.str "B"), ("start_datetime", Json.null),
    ("end_datetime", Json.str "2026-02-18 17:00")]

/-- An element lacking `start_datetime` (the spec's own three-element
scenario). -/
def elemB : Json :=
  Json.obj [("summary", Json.str "B"),
    ("end_datetime", Json.str "2026-02-18 17:00")]

/-- A valid third element. -/
def elemC : Json :=
  Json.obj [("summary", Json.str "C"),
    ("start_datetime", Json.str "2026-02-19 09:00"),
    ("end_datetime", Json.str "2026-02-19 10:00")]

/-- The draft `elemC` converts to. -/
def draftC : EventDraft :=
  { summary := Json.str "C",
    start := { year := 2026, month := 2, day := 19, hour := 9, minute := 0,
               second := 0, tzMin := none },
    stop := { year := 2026, month := 2, day := 19, hour := 10, minute := 0,
              second := 0, tzMin := none },
    description := none, location := none, recurrence := none,
    reminders := none }

/-- Counterexample for C4: a two-element batch whose second element
carries an unparseable (non-string) timestamp.  The create path does
not drop just that element — the `TypeError` escapes the per-element
`except (KeyError, ValueError)` clause, the whole batch is aborted with
an error reply, and the valid first element is never created. -/
theorem c4_counterexample :
    convertDraftItem elemA = .ok (some draftA) ∧
    handleCreation (echoEnv [] (fun _ => .error "x"))
        (Json.arr [elemA, elemBadNull]) =
      ([], creationErrReply "strptime() argument 1 must be str, not NoneType") ∧
    (handleCreation (echoEnv [] (fun _ => .error "x"))
        (Json.arr [elemA, elemBadNull])).1 = [] :=
  ⟨rfl, rfl, rfl⟩

/-- C4 as amended: when every element of the batch is an object whose
timestamps, when present, are strings (so conversion raises nothing),
a malformed element — missing `start_datetime`/`end_datetime` or with a
timestamp string `strptime` rejects — is dropped and every remaining
valid element is still created (one insert each, in order); the
complete-failure reply appears exactly when no element is valid, and a
batch with valid elements never yields either failure reply.  In the
spec's three-element scenario (element 2 lacking `start_datetime`)
events 1 and 3 are created and the reply reports 2 successes. -/
theorem c4_amended :
    (∀ (env : Env) (elems : List Json),
      (∀ b, env.insertExec b = .ok b) →
      (∀ e ∈ elems, exceptOk (convertDraftItem e) = true) →
      (handleCreation env (Json.arr elems)).1 =
        (elems.filterMap draftOf).map
          (fun d => ApiCall.insert getWriteService env.calendarId
            (createEventBody d)) ∧
      (elems.filterMap draftOf = [] →
        (handleCreation env (Json.arr elems)).2 =
          "I couldn't parse the event details. Please try again.") ∧
      (elems.filterMap draftOf ≠ [] →
        (handleCreation env (Json.arr elems)).2 ≠
          "I couldn't parse the event details. Please try again." ∧
        (handleCreation env (Json.arr elems)).2 ≠
          "Sorry, I couldn't create any calendar events. Please try again.")) ∧
    handleCreation (echoEnv [] (fun _ => .error "x"))
        (Json.arr [elemA, elemB, elemC]) =
      ([ApiCall.insert getWriteService "primary" (createEventBody draftA),
        ApiCall.insert getWriteService "primary" (createEventBody draftC)],
       "✓ Created 2 events:\n\n• **A**\n  📅 Wed, Feb 18 at 3:00 PM → 4:00 PM\n\n• **C**\n  📅 Thu, Feb 19 at 9:00 AM → 10:00 AM") := by
  constructor
  · intro env elems hecho hok
    have hcd := collectDrafts_eq_filterMap elems hok
    have hcl := createLoop_echo env hecho (elems.filterMap draftOf)
    unfold handleCreation
    simp only [jsonIterElems, hcd, hcl]
    rcases hd : elems.filterMap draftOf with _ | ⟨d0, drest⟩
    · simp
    · simp only [List.isEmpty_cons, Bool.false_eq_true, if_false]
      refine ⟨by (repeat' split) <;> rfl, by simp, ?_⟩
      intro _
      rw [if_neg (by simp)]
      rcases hb : buildCreationReply ((d0 :: drest).map createEventBody)
          with e | r <;> simp only [hb]
      · constructor <;>
          exact ne_of_headChar _ _ (Char.ofNat 65)
            (headPrefix _ _ _ (by decide)) (by decide)
      · constructor <;>
          exact ne_of_headChar _ _ (Char.ofNat 10003)
            (buildCreationReply_head _ r hb) (by decide)
  · rfl

/-- Witness for C4's amended statement at the spec's three-element
scenario. -/
theorem c4_amended_witness :
    (handleCreation (echoEnv [] (fun _ => .error "x"))
        (Json.arr [elemA, elemB, elemC])).1 =
      ([elemA, elemB, elemC].filterMap draftOf).map
        (fun d => ApiCall.insert getWriteService "primary"
          (createEventBody d)) ∧
    ([elemA, elemB, elemC].filterMap draftOf ≠ [] →
      (handleCreation (echoEnv [] (fun _ => .error "x"))
          (Json.arr [elemA, elemB, elemC])).2 ≠
        "I couldn't parse the event details. Please try again." ∧
      (handleCreation (echoEnv [] (fun _ => .error "x"))
          (Json.arr [elemA, elemB, elemC])).2 ≠
        "Sorry, I couldn't create any calendar events. Please try again.") := by
  have h := (c4_amended.1 (echoEnv [] (fun _ => .error "x"))
    [elemA, elemB, elemC] (fun b => rfl)
    (fun e he => by fin_cases he <;> rfl))
  exact ⟨h.1, h.2.2⟩

/-! ## C10 — totality and skipping behavior of the standalone extractor -/

/-- A model response whose array holds a valid element and an element
with a `null` timestamp. -/
def c10Raw : String :=
  "[\x7b\"summary\": \"A\", \"start_datetime\": \"2026-02-18 15:00\", \"end_datetime\": \"2026-02-18 16:00\"\x7d, \x7b\"summary\": \"B\", \"start_datetime\": null, \"end_datetime\": \"2026-02-18 17:00\"\x7d]"

set_option maxRecDepth 4000 in
/-- Counterexample for C10: the second element of the model's array
carries an unparseable timestamp (JSON `null`), yet it is not merely
skipped — the `TypeError` escapes the per-element clause and the whole
call returns `[]`, dropping the remaining valid first element too. -/
theorem c10_counterexample :
    jsonParse c10Raw = some (Json.arr [elemA, elemBadNull]) ∧
    convertDraftItem elemA = .ok (some draftA) ∧
    parseMessageToEvents (.ok c10Raw) = [] :=
  ⟨rfl, rfl, rfl⟩

/-- C10 as amended: `parse_message_to_events` returns `[]` (never
raising) on model-call failure and on unparseable JSON; when the JSON
is an array whose elements all convert without a propagating exception
(objects whose timestamps, when present, are strings), elements with
missing or unparseable timestamps are skipped and exactly the valid
elements are returned, with `summary` defaulting to
`'Untitled Event'`; but one non-object element or non-string timestamp
aborts the conversion and yields `[]`. -/
theorem c10_amended :
    (∀ e : String, parseMessageToEvents (.error e) = []) ∧
    (∀ raw t, stripFenceS (pyStripS raw) = some t → jsonParse t = none →
      parseMessageToEvents (.ok raw) = []) ∧
    (∀ raw t elems, stripFenceS (pyStripS raw) = some t →
      jsonParse t = some (Json.arr elems) →
      (∀ e ∈ elems, exceptOk (convertDraftItem e) = true) →
      parseMessageToEvents (.ok raw) = elems.filterMap draftOf) ∧
    (∀ (fields : List (String × Json)) (d : EventDraft),
      lookupField fields "summary" = none →
      convertDraftItem (Json.obj fields) = .ok (some d) →
      d.summary = Json.str "Untitled Event") := by
  refine ⟨fun e => rfl, ?_, ?_, ?_⟩
  · intro raw t hs hp
    unfold parseMessageToEvents
    simp only [hs, hp]
  · intro raw t elems hs hp hok
    unfold parseMessageToEvents
    simp only [hs, hp, pyLen, jsonIterElems,
      collectDrafts_eq_filterMap elems hok]
  · intro fields d hsum h
    unfold convertDraftItem at h
    simp only [jGet, hsum, bind, Except.bind] at h
    repeat' split at h
    all_goals
      try simp only [pure, Except.pure, Except.ok.injEq, Option.some.injEq] at h
    all_goals
      first
      | exact Option.noConfusion h
      | exact Except.noConfusion h
      | rw [← h]

/-- The fenced model response of the C10 witness. -/
def c10OkRaw : String :=
  "```json\n[\x7b\"summary\": \"A\", \"start_datetime\": \"2026-02-18 15:00\", \"end_datetime\": \"2026-02-18 16:00\"\x7d, \x7b\"summary\": \"C\", \"start_datetime\": \"2026-02-19 09:00\", \"end_datetime\": \"2026-02-19 10:00\"\x7d]\n```"

/-- `c10OkRaw` with the fence stripped. -/
def c10Inner : String :=
  "[\x7b\"summary\": \"A\", \"start_datetime\": \"2026-02-18 15:00\", \"end_datetime\": \"2026-02-18 16:00\"\x7d, \x7b\"summary\": \"C\", \"start_datetime\": \"2026-02-19 09:00\", \"end_datetime\": \"2026-02-19 10:00\"\x7d]"

/-- An element with no `summary` field. -/
def noSummaryFields : List (String × Json) :=
  [("start_datetime", Json.str "2026-02-18 15:00"),
   ("end_datetime", Json.str "2026-02-18 16:00")]

/-- The draft `noSummaryFields` converts to. -/
def noSummaryDraft : EventDraft :=
  { summary := Json.str "Untitled Event", start := dtFeb18at15,
    stop := dtFeb18at16, description := none, location := none,
    recurrence := none, reminders := none }

set_option maxRecDepth 8000 in
/-- Witness for C10's amended statement: a fenced two-element response
parses to its two drafts, and a summary-less element defaults to
`'Untitled Event'`. -/
theorem c10_amended_witness :
    parseMessageToEvents (.ok c10OkRaw) = [draftA, draftC] ∧
    noSummaryDraft.summary = Json.str "Untitled Event" := by
  constructor
  · have h := c10_amended.2.2.1 c10OkRaw c10Inner [elemA, elemC] rfl rfl
      (fun e he => by fin_cases he <;> rfl)
    rw [h]
    rfl
  · exact c10_amended.2.2.2 noSummaryFields noSummaryDraft rfl rfl

/-! ## C7 — fence stripping: occurrence lemmas -/

lemma fence3_ne_nil : fence3 ≠ [] := by decide

lemma splitFirst_of_prefix (sep l : List Char) (hne : sep ≠ [])
    (h : sep.isPrefixOf l = true) :
    splitFirst sep l = some ([], l.drop sep.length) := by
  cases l with
  | nil =>
    rw [List.isPrefixOf_iff_prefix] at h
    have hl := h.length_le
    simp at hl
    exact absurd hl hne
  | cons c cs =>
    unfold splitFirst
    rw [if_pos h]

lemma splitFirst_eq_none_of (sep : List Char) :
    ∀ l : List Char, (∀ t, t <:+ l → sep.isPrefixOf t = false) →
      splitFirst sep l = none := by
  intro l
  induction l with
  | nil =>
    intro h
    have h0 := h [] List.nil_suffix
    unfold splitFirst
    rw [if_neg]
    intro hemp
    rw [List.isEmpty_iff] at hemp
    subst hemp
    simp [List.isPrefixOf] at h0
  | cons c cs ih =>
    intro h
    unfold splitFirst
    rw [if_neg (by simp [h (c :: cs) (List.suffix_refl _)])]
    rw [ih (fun t ht => h t (ht.trans (List.suffix_cons c cs)))]

lemma no_occ_of_splitFirst_none (sep : List Char) :
    ∀ l : List Char, splitFirst sep l = none →
      ∀ t, t <:+ l → sep.isPrefixOf t = false := by
  intro l
  induction l with
  | nil =>
    intro h t ht
    rw [List.suffix_nil.mp ht]
    unfold splitFirst at h
    rcases sep with _ | ⟨s0, srest⟩
    · simp at h
    · rfl
  | cons c cs ih =>
    intro h t ht
    unfold splitFirst at h
    by_cases hp : sep.isPrefixOf (c :: cs) = true
    · rw [if_pos hp] at h
      cases h
    · rw [if_neg hp] at h
      rcases hs : splitFirst sep cs with _ | pq
      · rcases List.suffix_cons_iff.mp ht with rfl | ht'
        · exact Bool.not_eq_true _ ▸ (by simpa using hp)
        · exact ih hs t ht'
      · rw [hs] at h
        cases h

lemma suffix_snoc_iff (t l : List Char) (c : Char) :
    t <:+ l ++ [c] ↔ t = [] ∨ ∃ t', t' <:+ l ∧ t = t' ++ [c] := by
  constructor
  · intro h
    rcases t.eq_nil_or_concat with rfl | ⟨t', c', rfl⟩
    · exact .inl rfl
    · right
      rw [← List.reverse_prefix] at h
      simp only [List.concat_eq_append, List.reverse_append, List.reverse_cons,
        List.reverse_nil, List.nil_append, List.singleton_append] at h
      rw [List.cons_prefix_cons] at h
      obtain ⟨rfl, hpre⟩ := h
      exact ⟨t', List.reverse_prefix.mp hpre, by simp⟩
  · intro h
    rcases h with rfl | ⟨t', ht', rfl⟩
    · exact List.nil_suffix
    · obtain ⟨u, rfl⟩ := ht'
      exact ⟨u, by simp⟩

/-- No nonempty suffix of the newline-padded body `\n` ++ sd ++ `\n`
begins a triple-backtick fence, given that `sd` itself contains none:
a fence inside the padding would have to contain one of the padding
newlines. -/
lemma noFence_in_padded (sd : List Char)
    (hocc : ∀ t, t <:+ sd → fence3.isPrefixOf t = false) :
    ∀ t, t <:+ ('\n' :: (sd ++ ['\n'])) → fence3.isPrefixOf t = false := by
  intro t ht
  rcases List.suffix_cons_iff.mp ht with rfl | ht'
  · simp [fence3, List.isPrefixOf, btick]
  · rcases (suffix_snoc_iff t sd '\n').mp ht' with rfl | ⟨t', ht'', rfl⟩
    · rfl
    · rcases t' with _ | ⟨c1, t''⟩
      · simp [fence3, List.isPrefixOf, btick]
      rcases t'' with _ | ⟨c2, t'''⟩
      · simp [fence3, List.isPrefixOf, btick]
      rcases t''' with _ | ⟨c3, t4⟩
      · simp [fence3, List.isPrefixOf, btick]
      · by_contra hp
        rw [Bool.not_eq_false] at hp
        have h1 := List.prefix_iff_eq_take.mp (List.isPrefixOf_iff_prefix.mp hp)
        rw [show fence3.length = 3 from rfl] at h1
        rw [List.take_append_of_le_length (by simp)] at h1
        have h2 : fence3.isPrefixOf (c1 :: c2 :: c3 :: t4) = true := by
          rw [List.isPrefixOf_iff_prefix, h1]
          exact List.take_prefix _ _
        rw [hocc _ ht''] at h2
        cases h2

lemma suffix_append_iff (t x y : List Char) :
    t <:+ x ++ y ↔ t <:+ y ∨ ∃ t', t' <:+ x ∧ t = t' ++ y := by
  induction x with
  | nil =>
    simp only [List.nil_append]
    constructor
    · exact fun h => .inl h
    · rintro (h | ⟨t', ht', rfl⟩)
      · exact h
      · rw [List.suffix_nil.mp ht']
        simp
  | cons c x' ih =>
    constructor
    · intro h
      rcases List.suffix_cons_iff.mp h with rfl | h'
      · exact .inr ⟨c :: x', List.suffix_refl _, rfl⟩
      · rcases ih.mp h' with h'' | ⟨t', ht', rfl⟩
        · exact .inl h''
        · exact .inr ⟨t', ht'.trans (List.suffix_cons c x'), rfl⟩
    · rintro (h | ⟨t', ht', rfl⟩)
      · obtain ⟨u, rfl⟩ := h
        exact ⟨(c :: x') ++ u, by simp⟩
      · obtain ⟨u, hu⟩ := ht'
        exact ⟨u, by rw [← List.append_assoc, hu]⟩

/-- No nonempty suffix of the padded body begins a fence, whatever
follows it: a short suffix puts one of the padding newlines under the
fence, a long one would put a fence inside the padded body. -/
lemma noFencePrefix_padded_ext (sd : List Char)
    (hocc : ∀ t, t <:+ sd → fence3.isPrefixOf t = false) :
    ∀ t, t ≠ [] → t <:+ ('\n' :: (sd ++ ['\n'])) → ∀ X,
      fence3.isPrefixOf (t ++ X) = false := by
  intro t htne hts X
  have hrev : t.reverse <+: ('\n' :: (sd.reverse ++ ['\n'])) := by
    have := List.reverse_prefix.mpr hts
    simpa [List.reverse_cons, List.reverse_append] using this
  rcases hr : t.reverse with _ | ⟨c0, restR⟩
  · exact absurd (by simpa using congrArg List.reverse hr) htne
  · rw [hr, List.cons_prefix_cons] at hrev
    obtain ⟨rfl, _⟩ := hrev
    have ht : t = restR.reverse ++ ['\n'] := by
      have := congrArg List.reverse hr
      simpa using this
    rcases hrr : restR.reverse with _ | ⟨c1, rr'⟩
    · rw [ht, hrr]
      simp [fence3, List.isPrefixOf, btick]
    rcases rr' with _ | ⟨c2, rr''⟩
    · rw [ht, hrr]
      simp [fence3, List.isPrefixOf, btick]
    · by_contra hp
      rw [Bool.not_eq_false] at hp
      have hlen : 3 ≤ t.length := by
        rw [ht, hrr]
        simp
      have h1 := List.prefix_iff_eq_take.mp (List.isPrefixOf_iff_prefix.mp hp)
      rw [show fence3.length = 3 from rfl,
        List.take_append_of_le_length hlen] at h1
      have h2 : fence3.isPrefixOf t = true := by
        rw [List.isPrefixOf_iff_prefix, h1]
        exact List.take_prefix _ _
      rw [noFence_in_padded sd hocc t hts] at h2
      cases h2

/-- `splitFirst` finds the separator exactly at the marked position when
no occurrence can start earlier. -/
lemma splitFirst_marker (b : List Char) :
    ∀ a : List Char,
      (∀ t, t ≠ [] → t <:+ a → fence3.isPrefixOf (t ++ (fence3 ++ b)) = false) →
      splitFirst fence3 (a ++ (fence3 ++ b)) = some (a, b) := by
  intro a
  induction a with
  | nil =>
    intro _
    rw [List.nil_append,
      splitFirst_of_prefix fence3 _ fence3_ne_nil
        (by rw [List.isPrefixOf_iff_prefix]; exact List.prefix_append _ _),
      List.drop_left]
  | cons c a' ih =>
    intro h
    show splitFirst fence3 (c :: (a' ++ (fence3 ++ b))) = _
    unfold splitFirst
    rw [if_neg (by
      have hh := h (c :: a') (by simp) (List.suffix_refl _)
      rw [List.cons_append] at hh
      simp [hh])]
    rw [ih (fun t ht hsuf => h t ht (hsuf.trans (List.suffix_cons c a')))]

/-- No occurrence of the tagged fence inside `body ++ fence`: an
occurrence would be an occurrence of the bare fence too, which the
padding newlines and the absence of a fence in the body rule out; an
occurrence inside the final fence is too short. -/
lemma no7_in_body_fence (sd : List Char)
    (hocc : ∀ t, t <:+ sd → fence3.isPrefixOf t = false) :
    splitFirst fence7 (('\n' :: (sd ++ ['\n'])) ++ fence3) = none := by
  apply splitFirst_eq_none_of
  intro t ht
  rcases (suffix_append_iff t _ fence3).mp ht with h3 | ⟨t', ht', rfl⟩
  · by_contra hp
    rw [Bool.not_eq_false, List.isPrefixOf_iff_prefix] at hp
    have := hp.length_le.trans h3.length_le
    simp [fence7, fence3] at this
  · rcases t' with _ | ⟨c', t''⟩
    · by_contra hp
      rw [Bool.not_eq_false, List.isPrefixOf_iff_prefix] at hp
      have := hp.length_le
      simp [fence7, fence3] at this
    · by_contra hp
      rw [Bool.not_eq_false] at hp
      have h3 : fence3.isPrefixOf ((c' :: t'') ++ fence3) = true := by
        rw [List.isPrefixOf_iff_prefix]
        exact List.IsPrefix.trans
          (by rw [← List.isPrefixOf_iff_prefix]; decide)
          (List.isPrefixOf_iff_prefix.mp hp)
      rw [show (c' :: t'') ++ fence3 = (c' :: t'') ++ (fence3 ++ []) from by simp]
        at h3
      rw [noFencePrefix_padded_ext sd hocc (c' :: t'') (by simp) ht'
        (fence3 ++ [])] at h3
      cases h3

/-- The bare fence occurs in `body ++ fence` exactly at the end. -/
lemma mark3_in_body_fence (sd : List Char)
    (hocc : ∀ t, t <:+ sd → fence3.isPrefixOf t = false) :
    splitFirst fence3 (('\n' :: (sd ++ ['\n'])) ++ fence3) =
      some ('\n' :: (sd ++ ['\n']), []) := by
  rw [show ('\n' :: (sd ++ ['\n'])) ++ fence3 =
    ('\n' :: (sd ++ ['\n'])) ++ (fence3 ++ []) from by simp]
  exact splitFirst_marker [] _
    (fun t ht hsuf => noFencePrefix_padded_ext sd hocc t ht hsuf (fence3 ++ []))

/-- The fence-stripping transformation on `fence ++ body ++ fence`
inputs with a `json` language tag. -/
lemma stripFence_wrapped7 (sd : List Char)
    (hocc : ∀ t, t <:+ sd → fence3.isPrefixOf t = false)
    (hstrip : pyStripL ('\n' :: (sd ++ ['\n'])) = sd) :
    stripFenceL (fence7 ++ (('\n' :: (sd ++ ['\n'])) ++ fence3)) = some sd := by
  have hpre7 : fence7.isPrefixOf
      (fence7 ++ (('\n' :: (sd ++ ['\n'])) ++ fence3)) = true := by
    rw [List.isPrefixOf_iff_prefix]
    exact List.prefix_append _ _
  unfold stripFenceL pySplit1 pySplit0
  rw [if_pos hpre7,
    splitFirst_of_prefix fence7 _ (by decide) hpre7,
    List.drop_left]
  simp only [Option.map_some', no7_in_body_fence sd hocc,
    mark3_in_body_fence sd hocc, hstrip]

/-- The fence-stripping transformation on plain-fence inputs. -/
lemma stripFence_wrapped3 (sd : List Char)
    (hocc : ∀ t, t <:+ sd → fence3.isPrefixOf t = false)
    (hstrip : pyStripL ('\n' :: (sd ++ ['\n'])) = sd) :
    stripFenceL (fence3 ++ (('\n' :: (sd ++ ['\n'])) ++ fence3)) = some sd := by
  have hpre3 : fence3.isPrefixOf
      (fence3 ++ (('\n' :: (sd ++ ['\n'])) ++ fence3)) = true := by
    rw [List.isPrefixOf_iff_prefix]
    exact List.prefix_append _ _
  have hnpre7 : fence7.isPrefixOf
      (fence3 ++ (('\n' :: (sd ++ ['\n'])) ++ fence3)) = false := by
    by_contra hp
    rw [Bool.not_eq_false, List.isPrefixOf_iff_prefix] at hp
    unfold fence7 at hp
    rw [List.prefix_append_right_inj] at hp
    simp only [List.cons_append] at hp
    rw [List.cons_prefix_cons] at hp
    exact absurd hp.1 (by decide)
  unfold stripFenceL pySplit1 pySplit0
  rw [if_neg (by simp only [hnpre7]; decide), if_pos hpre3,
    splitFirst_of_prefix fence3 _ fence3_ne_nil hpre3,
    List.drop_left]
  simp only [Option.map_some', mark3_in_body_fence sd hocc,
    splitFirst_eq_none_of fence3 _ (noFence_in_padded sd hocc), hstrip]

/-- An input that does not begin with a fence passes through
unchanged. -/
lemma stripFence_nofence (sd : List Char) (hnp : fence3.isPrefixOf sd = false) :
    stripFenceL sd = some sd := by
  have hnp7 : fence7.isPrefixOf sd = false := by
    by_contra hp
    rw [Bool.not_eq_false, List.isPrefixOf_iff_prefix] at hp
    have h3 : fence3 <+: sd :=
      List.IsPrefix.trans (by rw [← List.isPrefixOf_iff_prefix]; decide) hp
    rw [← List.isPrefixOf_iff_prefix] at h3
    rw [hnp] at h3
    cases h3
  unfold stripFenceL
  rw [if_neg (by simp [hnp7]), if_neg (by simp [hnp])]

/-! ## C7 — fixpoints of the Python strip() -/

/-- A strip() fixpoint is a fixpoint of each one-sided trim. -/
lemma dropWhile_fix_of_pyStripL (l : List Char) (h : pyStripL l = l) :
    l.dropWhile pyWs = l ∧ l.reverse.dropWhile pyWs = l.reverse := by
  have ha : l.dropWhile pyWs <:+ l := List.dropWhile_suffix pyWs
  have hb : (l.dropWhile pyWs).reverse.dropWhile pyWs <:+
      (l.dropWhile pyWs).reverse := List.dropWhile_suffix pyWs
  have hlen : ((l.dropWhile pyWs).reverse.dropWhile pyWs).length = l.length := by
    have h' := congrArg List.length h
    simpa [pyStripL] using h'
  have hal : (l.dropWhile pyWs).length = l.length := by
    have h1 := ha.length_le
    have h2 := hb.length_le
    rw [List.length_reverse] at h2
    omega
  have haeq : l.dropWhile pyWs = l := ha.eq_of_length hal
  refine ⟨haeq, ?_⟩
  have hbl : ((l.dropWhile pyWs).reverse.dropWhile pyWs).length =
      (l.dropWhile pyWs).reverse.length := by
    rw [hlen, haeq, List.length_reverse]
  have hbeq := hb.eq_of_length hbl
  rw [haeq] at hbeq
  exact hbeq

/-- strip() of the newline-padded body recovers the body when the body
is itself strip()-fixed. -/
lemma pyStripL_padded (sd : List Char) (h : pyStripL sd = sd) :
    pyStripL ('\n' :: (sd ++ ['\n'])) = sd := by
  obtain ⟨h1, h2⟩ := dropWhile_fix_of_pyStripL sd h
  cases sd with
  | nil => rfl
  | cons c cs =>
    have hc : pyWs c = false := by
      by_contra hcc
      rw [Bool.not_eq_false] at hcc
      rw [List.dropWhile_cons_of_pos hcc] at h1
      have hlen := congrArg List.length h1
      have hle : (cs.dropWhile pyWs).length ≤ cs.length :=
        List.IsSuffix.length_le (List.dropWhile_suffix pyWs)
      simp only [List.length_cons] at hlen
      omega
    unfold pyStripL
    rw [List.dropWhile_cons_of_pos (by decide), List.cons_append,
        List.dropWhile_cons_of_neg (by simp [hc]), ← List.cons_append,
        List.reverse_append,
        show ['\n'].reverse = ['\n'] from rfl, List.singleton_append,
        List.dropWhile_cons_of_pos (by decide), h2, List.reverse_reverse]

/-- A json-tagged fenced input is backtick-bounded, so strip() leaves
it unchanged. -/
lemma pyStripL_fenced7 (z : List Char) :
    pyStripL (fence7 ++ (z ++ fence3)) = fence7 ++ (z ++ fence3) := by
  unfold pyStripL
  have h1 : (fence7 ++ (z ++ fence3)).dropWhile pyWs =
      fence7 ++ (z ++ fence3) := by
    simp only [fence7, fence3, List.cons_append, List.nil_append,
      List.append_assoc]
    rw [List.dropWhile_cons_of_neg (by decide)]
  have h2 : (fence7 ++ (z ++ fence3)).reverse.dropWhile pyWs =
      (fence7 ++ (z ++ fence3)).reverse := by
    rw [List.reverse_append, List.reverse_append,
        show fence3.reverse = fence3 from by decide]
    simp only [fence3, List.cons_append, List.nil_append, List.append_assoc]
    rw [List.dropWhile_cons_of_neg (by decide)]
  rw [h1, h2, List.reverse_reverse]

/-- A bare fenced input is backtick-bounded, so strip() leaves it
unchanged. -/
lemma pyStripL_fenced3 (z : List Char) :
    pyStripL (fence3 ++ (z ++ fence3)) = fence3 ++ (z ++ fence3) := by
  unfold pyStripL
  have h1 : (fence3 ++ (z ++ fence3)).dropWhile pyWs =
      fence3 ++ (z ++ fence3) := by
    simp only [fence3, List.cons_append, List.nil_append, List.append_assoc]
    rw [List.dropWhile_cons_of_neg (by decide)]
  have h2 : (fence3 ++ (z ++ fence3)).reverse.dropWhile pyWs =
      (fence3 ++ (z ++ fence3)).reverse := by
    rw [List.reverse_append, List.reverse_append,
        show fence3.reverse = fence3 from by decide]
    simp only [fence3, List.cons_append, List.nil_append, List.append_assoc]
    rw [List.dropWhile_cons_of_neg (by decide)]
  rw [h1, h2, List.reverse_reverse]

/-! ## C7 — fence stripping round-trip -/

/-- Composition of the two preprocessing steps of the extractor
(calendar_feature.py 231-237). -/
lemma stripFence_pyStrip (w : String) :
    stripFenceS (pyStripS w) =
      (stripFenceL (pyStripL w.data)).map (fun l => (⟨l⟩ : String)) := rfl

/-- A well-formed Modify request whose `search_query` value contains a
triple backtick. -/
def c7Bad : String :=
  "\x7b\"action\": \"modify\", \"search_query\": \"```\", \"updates\": \x7b\"summary\": \"x\"\x7d\x7d"

set_option maxRecDepth 8000 in
/-- Counterexample for C7: a well-formed request whose `search_query`
string value contains a triple backtick parses unwrapped, but its
markdown-fenced form does not parse to the same request — the inner
`.split(three backticks)[0]` cuts the JSON at the embedded backticks
and the extractor returns `None`. -/
theorem c7_counterexample :
    parseCalendarRequest (.ok c7Bad) =
      some (Json.obj [("action", Json.str "modify"),
        ("search_query", Json.str "```"),
        ("updates", Json.obj [("summary", Json.str "x")])]) ∧
    parseCalendarRequest (.ok ("```json\n" ++ c7Bad ++ "\n```")) = none :=
  ⟨rfl, rfl⟩

/-- C7 as amended: for a strip()-fixed request string that contains no
triple-backtick sequence, the extractor parses the string wrapped in
markdown fencing (json-tagged or bare, newline-padded) to the same
result as the unwrapped string; and whenever the preprocessed text
fails JSON parsing the extractor yields `None` rather than an
exception.  A request string containing a triple backtick is excluded
(see the counterexample). -/
theorem c7_amended (s : String)
    (hstrip : pyStripS s = s)
    (hocc : containsSeq fence3 s.data = false) :
    (parseCalendarRequest (.ok ("```json\n" ++ s ++ "\n```")) =
        parseCalendarRequest (.ok s) ∧
     parseCalendarRequest (.ok ("```\n" ++ s ++ "\n```")) =
        parseCalendarRequest (.ok s)) ∧
    ∀ (raw t : String), stripFenceS (pyStripS raw) = some t →
      jsonParse t = none → parseCalendarRequest (.ok raw) = none := by
  have hnone : splitFirst fence3 s.data = none := by
    unfold containsSeq at hocc
    rcases hsf : splitFirst fence3 s.data with _ | p
    · rfl
    · rw [hsf] at hocc
      simp at hocc
  have hocc' : ∀ t, t <:+ s.data → fence3.isPrefixOf t = false :=
    no_occ_of_splitFirst_none fence3 s.data hnone
  have hstripL : pyStripL s.data = s.data := congrArg String.data hstrip
  have hpad : pyStripL ('\n' :: (s.data ++ ['\n'])) = s.data :=
    pyStripL_padded s.data hstripL
  have hw7 : ("```json\n" ++ s ++ "\n```").data =
      fence7 ++ (('\n' :: (s.data ++ ['\n'])) ++ fence3) := by
    simp only [String.data_append]
    simp [fence7, fence3, btick]
  have hw3 : ("```\n" ++ s ++ "\n```").data =
      fence3 ++ (('\n' :: (s.data ++ ['\n'])) ++ fence3) := by
    simp only [String.data_append]
    simp [fence3, btick]
  have hplain : stripFenceS (pyStripS s) = some s := by
    rw [stripFence_pyStrip, hstripL,
        stripFence_nofence s.data (hocc' s.data (List.suffix_refl _)),
        Option.map_some']
  have hfenced7 : stripFenceS (pyStripS ("```json\n" ++ s ++ "\n```")) =
      some s := by
    rw [stripFence_pyStrip, hw7, pyStripL_fenced7,
        stripFence_wrapped7 s.data hocc' hpad, Option.map_some']
  have hfenced3 : stripFenceS (pyStripS ("```\n" ++ s ++ "\n```")) =
      some s := by
    rw [stripFence_pyStrip, hw3, pyStripL_fenced3,
        stripFence_wrapped3 s.data hocc' hpad, Option.map_some']
  refine ⟨⟨?_, ?_⟩, ?_⟩
  · unfold parseCalendarRequest
    simp only [hfenced7, hplain]
  · unfold parseCalendarRequest
    simp only [hfenced3, hplain]
  · intro raw t hs hp
    unfold parseCalendarRequest
    simp only [hs, hp]

/-- A well-formed Chat request with no backticks. -/
def c7Ok : String := "\x7b\"action\": \"chat\"\x7d"

set_option maxRecDepth 4000 in
/-- Witness for C7's amended statement on a concrete backtick-free
request: both fenced forms parse to the unwrapped result, which is the
expected dictionary. -/
theorem c7_amended_witness :
    (parseCalendarRequest (.ok ("```json\n" ++ c7Ok ++ "\n```")) =
        parseCalendarRequest (.ok c7Ok) ∧
     parseCalendarRequest (.ok ("```\n" ++ c7Ok ++ "\n```")) =
        parseCalendarRequest (.ok c7Ok)) ∧
    parseCalendarRequest (.ok c7Ok) =
      some (Json.obj [("action", Json.str "chat")]) :=
  ⟨(c7_amended c7Ok rfl rfl).1, rfl⟩

end Alfred
